import Mathlib

/-!
Levanter (DEX Nova) gateway: command router, inbound-message path, group metadata store.

A shallow embedding of `src/lib/cmd.js`, the `messages.upsert` handlers of
`src/lib/client.js` and `src/lib/index.js`, `src/lib/store.js`, the restart counters of
`src/launcher.js`, the `connection.update` handlers of `src/lib/client.js`,
`src/lib/legacy_client.js`, `src/lib/auth.js` and `src/lib/index.js`, and `numToJid` and
`formatNumber` of `src/lib/nr.js`.

Conventions of the embedding

* JavaScript strings are lists of characters (`Str`).
* `Date.now()` is an explicit `now : Int` argument, read once per call.
* Module-level `Map`s (`cooldowns`, `commands`, `aliases`, `groupCache`,
  `participantCache`) are association lists passed in and out explicitly.
* Everything a function does to the outside world (starting a plugin handler,
  `sock.sendMessage`, `client.groupMetadata`, console output) is returned as a list of
  `Effect`s in program order.
* Code that lives outside the repository is a parameter: the plugin handlers
  (`run`), the session's `groupMetadata` (`session`), `String.prototype.toLowerCase`
  (`toLowerCase`) and the compiled prefix regular expression (`prefixRegex`).
-/

namespace Levanter

/-- A JavaScript string. -/
abbrev Str := List Char

/-! ## JavaScript built-ins used by the sources -/

namespace Js

/-- ECMAScript `WhiteSpace` and `LineTerminator` code points, the characters removed by
`String.prototype.trim`. -/
def isWhiteSpace (c : Char) : Bool :=
  let n := c.toNat
  n == 0x09 || n == 0x0A || n == 0x0B || n == 0x0C || n == 0x0D || n == 0x20 ||
  n == 0xA0 || n == 0x1680 || (0x2000 ≤ n && n ≤ 0x200A) || n == 0x2028 ||
  n == 0x2029 || n == 0x202F || n == 0x205F || n == 0x3000 || n == 0xFEFF

/-- ECMAScript `LineTerminator` code points, the characters `.` does not match. -/
def isLineTerminator (c : Char) : Bool :=
  let n := c.toNat
  n == 0x0A || n == 0x0D || n == 0x2028 || n == 0x2029

/-- Text of `s.trimStart()`. -/
def trimStart (s : Str) : Str := s.dropWhile isWhiteSpace

/-- Text of `s.trimEnd()`. -/
def trimEnd (s : Str) : Str := (s.reverse.dropWhile isWhiteSpace).reverse

/-- Text of `s.trim()`. -/
def trim (s : Str) : Str := trimEnd (trimStart s)

/-- Pieces of `s.split(sep)` for a one-character separator; never the empty array. -/
def split (sep : Char) : Str → List Str
  | [] => [[]]
  | c :: cs =>
    if c = sep then [] :: split sep cs
    else
      match split sep cs with
      | [] => [[c]]
      | w :: ws => (c :: w) :: ws

/-- Text of `parts.join(sep)` for a one-character separator. -/
def join (sep : Char) : List Str → Str
  | [] => []
  | [w] => w
  | w :: ws => w ++ sep :: join sep ws

/-- Result of `s.startsWith(p)`. -/
def startsWith : Str → Str → Bool
  | _, [] => true
  | [], _ :: _ => false
  | c :: cs, d :: ds => c == d && startsWith cs ds

/-- Result of `s.endsWith(p)`. -/
def endsWith (s p : Str) : Bool := startsWith s.reverse p.reverse

/-- Result of `s.includes(p)`. -/
def includes : Str → Str → Bool
  | [], p => p.isEmpty
  | c :: cs, p => startsWith (c :: cs) p || includes cs p

/-- Value of `a || b` on strings that may be `undefined`: `a` when it is a non-empty
string, else `b`. -/
def orElse (a : Option Str) (b : Option Str) : Option Str :=
  match a with
  | some (c :: cs) => some (c :: cs)
  | _ => b

/-- A regular expression without the `g` flag, seen through `exec`: the index and the
length of the first match in the text, if any. -/
abbrev Pattern := Str → Option (Nat × Nat)

/-- Result of `re.test(text)`. -/
def test (re : Pattern) (text : Str) : Bool := (re text).isSome

/-- Text of `text.replace(re, '')`: the first match is cut out. -/
def replaceEmpty (re : Pattern) (text : Str) : Str :=
  match re text with
  | none => text
  | some (i, n) => text.take i ++ text.drop (i + n)

/-- The regular expression `/^./i`, which is what `new RegExp('^' + PREFIX, 'i')` builds
for `PREFIX = "."`: it matches the first character when that is not a line terminator. -/
def caretDot : Pattern
  | [] => none
  | c :: _ => if isLineTerminator c then none else some (0, 1)

/-- The regular expression `/^^[.,!]/i`, built for the default `PREFIX = "^[.,!]"` of
`lib/config.js`. -/
def caretClass : Pattern
  | [] => none
  | c :: _ => if c = '.' ∨ c = ',' ∨ c = '!' then some (0, 1) else none

/-- `toLowerCase` on the ASCII letters; an instance of the `toLowerCase` parameter on
which JavaScript agrees for ASCII text. -/
def asciiLower (s : Str) : Str := s.map Char.toLower

end Js

/-! ## `Map` -/

/-- A JavaScript `Map` with string keys, in insertion order. -/
abbrev JsMap (V : Type) := List (Str × V)

namespace JsMap

variable {V : Type}

/-- Result of `m.get(k)`; `none` is `undefined`. -/
def get : JsMap V → Str → Option V
  | [], _ => none
  | (k', v) :: m, k => if k' = k then some v else get m k

/-- Result of `m.has(k)`. -/
def has (m : JsMap V) (k : Str) : Bool := (get m k).isSome

/-- The map after `m.set(k, v)`: an existing key keeps its place. -/
def set : JsMap V → Str → V → JsMap V
  | [], k, v => [(k, v)]
  | (k', v') :: m, k, v => if k' = k then (k, v) :: m else (k', v') :: set m k v

/-- The map after `m.delete(k)`. -/
def delete (m : JsMap V) (k : Str) : JsMap V := m.filter (fun e => e.1 ≠ k)

end JsMap

/-! ## Data model -/

/-- A module of `plugins/`: the properties the router reads. `name = none` is a missing
name, `hasStart` is `typeof plugin.start === 'function'`, `aliases = none` is an absent
`alias` array. -/
structure Plugin where
  name : Option Str
  hasStart : Bool
  aliases : Option (List Str)
  sudoOnly : Bool
deriving DecidableEq, Repr

/-- A file of the `plugins/` directory with what `require` does on it: it throws an error
with a message, or yields the plugin. -/
structure PluginFile where
  file : Str
  load : Except Str Plugin

/-- The `key` of an inbound message. -/
structure MsgKey where
  remoteJid : Str
  participant : Option Str
  fromMe : Bool
deriving DecidableEq, Repr

/-- The `message` of an inbound message: `conversation` and `extendedTextMessage?.text`. -/
structure MsgContent where
  conversation : Option Str
  extendedText : Option Str
deriving DecidableEq, Repr

/-- An inbound message; `message = none` is a message without content. -/
structure Msg where
  key : MsgKey
  message : Option MsgContent
deriving DecidableEq, Repr

/-- The third argument of `plugin.start`. `pfx` is the property `prefix`; `isSudo` and
`isGroup` are `none` where the caller does not pass them. -/
structure StartArgs where
  pfx : Str
  args : List Str
  command : Str
  isSudo : Option Bool
  isGroup : Option Bool
deriving DecidableEq, Repr

/-- The settings of `lib/config.js` read by the router. -/
structure Config where
  PREFIX : Str
  SUDO : Str
deriving DecidableEq, Repr

/-- What a call does to the outside world. -/
inductive Effect where
  | start (plugin : Plugin) (msg : Msg) (args : StartArgs)
  | sendMessage (jid : Str) (text : Str)
  | groupMetadata (groupJid : Str)
  | consoleLog (line : Str)
  | consoleError (line : Str)
deriving DecidableEq, Repr

/-- The behaviour of the plugin handlers: `plugin.start(sock, msg, args)` resolves, or
throws an error with a message. -/
abbrev Handler := Plugin → Msg → StartArgs → Except Str Unit

/-- Number of plugin handlers started in a list of effects. -/
def startCount : List Effect → Nat
  | [] => 0
  | Effect.start _ _ _ :: es => startCount es + 1
  | _ :: es => startCount es

/-- The `(jid, text)` pairs handed to `sendMessage` in a list of effects. -/
def sent : List Effect → List (Str × Str)
  | [] => []
  | Effect.sendMessage jid text :: es => (jid, text) :: sent es
  | _ :: es => sent es

/-- The group ids for which the session's `groupMetadata` was called. -/
def refreshCalls : List Effect → List Str
  | [] => []
  | Effect.groupMetadata g :: es => g :: refreshCalls es
  | _ :: es => refreshCalls es

/-- Calling `plugin.start(sock, msg, args)`: a `TypeError` when `start` is not a
function, else the handler is started and its outcome is the handler's. -/
def callStart (who : Str) (run : Handler) (plugin : Plugin) (msg : Msg) (a : StartArgs) :
    List Effect × Except Str Unit :=
  if plugin.hasStart then ([Effect.start plugin msg a], run plugin msg a)
  else ([], Except.error (who ++ ".start is not a function".toList))

/-! ## `lib/cmd.js` -/

/-- The two module-level maps `commands` and `aliases`. -/
structure Registry where
  commands : JsMap Plugin
  aliases : JsMap Str
deriving DecidableEq, Repr

/-- The loop `for (const alias of plugin.alias) aliases.set(alias.toLowerCase(), name)`. -/
def setAliases (toLowerCase : Str → Str) (name : Str) : JsMap Str → List Str → JsMap Str
  | aliases, [] => aliases
  | aliases, a :: rest => setAliases toLowerCase name (aliases.set (toLowerCase a) name) rest

/-- One iteration of the registry load loop (lines 22-39; the reload loop of lines
105-120 is the same without the "Loaded command" line). -/
def loadFile (toLowerCase : Str → Str) (announce : Bool) (reg : Registry) (f : PluginFile) :
    Registry × List Effect :=
  match f.load with
  | Except.error e =>
    (reg, [Effect.consoleError
      ((if announce then "[Plugin Load Error] " else "[Reload Error] ").toList ++ f.file ++
        ": ".toList ++ e)])
  | Except.ok plugin =>
    match plugin.name with
    | none => (reg, [])
    | some [] => (reg, [])
    | some (c :: cs) =>
      if !plugin.hasStart then (reg, [])
      else
        let name := toLowerCase (c :: cs)
        let commands := reg.commands.set name plugin
        let aliases :=
          match plugin.aliases with
          | some as => setAliases toLowerCase name reg.aliases as
          | none => reg.aliases
        (⟨commands, aliases⟩,
          if announce then [Effect.consoleLog ("[DEX Nova] Loaded command: ".toList ++ c :: cs)]
          else [])

/-- The load loop over `commandFiles`. -/
def loadFiles (toLowerCase : Str → Str) (announce : Bool) :
    Registry → List PluginFile → Registry × List Effect
  | reg, [] => (reg, [])
  | reg, f :: fs =>
    let r := loadFile toLowerCase announce reg f
    let r' := loadFiles toLowerCase announce r.1 fs
    (r'.1, r.2 ++ r'.2)

/-- The files of `plugins/` whose name ends in `.js`. -/
def commandFiles (dir : List PluginFile) : List PluginFile :=
  dir.filter (fun f => Js.endsWith f.file ".js".toList)

/-- The registry built when `lib/cmd.js` is loaded, lines 13-39. -/
def loadCommands (toLowerCase : Str → Str) (dir : List PluginFile) : Registry × List Effect :=
  loadFiles toLowerCase true ⟨[], []⟩ (commandFiles dir)

/-- What the load loop guarantees of the registry: every registered plugin has a `start`
function, and every alias points at a registered name. -/
def Registry.WellFormed (reg : Registry) : Prop :=
  (∀ k p, reg.commands.get k = some p → p.hasStart = true) ∧
  (∀ a n, reg.aliases.get a = some n → ∃ p, reg.commands.get n = some p)

/-- The options object passed to `handleCommand`, with the properties `prefix`, `args`
and `command`. -/
structure Opts where
  pfx : Str
  args : List Str
  command : Str
deriving DecidableEq, Repr

/-- The `return` (or end of the body) at which a call of `handleCommand` stops. -/
inductive Exit where
  | rateLimited
  | unknown
  | forbidden
  | done
  | failed
deriving DecidableEq, Repr

/-- What a call of `handleCommand` leaves behind. -/
structure CmdResult where
  cooldowns : JsMap Int
  effects : List Effect
  exit : Exit
deriving DecidableEq, Repr

/-- The sender: `msg.key.participant || msg.key.remoteJid`. -/
def senderOf (msg : Msg) : Str :=
  (Js.orElse msg.key.participant (some msg.key.remoteJid)).getD []

/-- The test `config.SUDO.split(',').map(n => n.trim()).includes(sender.split('@')[0])`. -/
def isSudo (cfg : Config) (sender : Str) : Bool :=
  ((Js.split ',' cfg.SUDO).map Js.trim).contains ((Js.split '@' sender).headD [])

/-- Lines 65-69: the command word, lower-cased and sent through the alias map. -/
def resolveName (toLowerCase : Str → Str) (reg : Registry) (command : Str) : Str :=
  let cmdName := toLowerCase command
  match reg.aliases.get cmdName with
  | some n => n
  | none => cmdName

/-- The function `handleCommand(sock, msg, { prefix, args, command })`, lines 47-90. -/
def handleCommand (toLowerCase : Str → Str) (cfg : Config) (reg : Registry) (run : Handler)
    (now : Int) (cooldowns : JsMap Int) (msg : Msg) (o : Opts) : CmdResult :=
  let frm := msg.key.remoteJid
  let sender := senderOf msg
  let isGroup := Js.endsWith frm "@g.us".toList
  let sudoSender := isSudo cfg sender
  let lastUsed := (cooldowns.get sender).getD 0
  if !sudoSender && decide (now - lastUsed < 2000) then ⟨cooldowns, [], Exit.rateLimited⟩
  else
    let cooldowns := if sudoSender then cooldowns else cooldowns.set sender now
    let cmdName := resolveName toLowerCase reg o.command
    match reg.commands.get cmdName with
    | none => ⟨cooldowns, [], Exit.unknown⟩
    | some cmd =>
      if cmd.sudoOnly && !sudoSender then
        ⟨cooldowns, [Effect.sendMessage frm "_This command is only for SUDO/OWNER_".toList],
          Exit.forbidden⟩
      else
        let a : StartArgs := ⟨o.pfx, o.args, cmdName, some sudoSender, some isGroup⟩
        let r := callStart "cmd".toList run cmd msg a
        match r.2 with
        | Except.ok _ =>
          ⟨cooldowns,
            r.1 ++ [Effect.consoleLog ("[CMD] ".toList ++ (Js.split '@' sender).headD [] ++
              " used: ".toList ++ cmdName ++ ' ' :: Js.join ' ' o.args)],
            Exit.done⟩
        | Except.error e =>
          ⟨cooldowns,
            r.1 ++ [Effect.consoleError ("[CMD ERROR] ".toList ++ cmdName ++ ": ".toList ++ e),
              Effect.sendMessage frm "_Error executing command. Contact owner._".toList],
            Exit.failed⟩

/-- One call of `handleCommand`: the handlers' behaviour at that moment, the clock, and
the arguments. -/
structure Call where
  run : Handler
  now : Int
  msg : Msg
  opts : Opts

/-- A sequence of calls of `handleCommand`, one after the other, on the shared
`cooldowns` map. -/
def handleCommands (toLowerCase : Str → Str) (cfg : Config) (reg : Registry) :
    JsMap Int → List Call → JsMap Int × List Effect
  | cooldowns, [] => (cooldowns, [])
  | cooldowns, c :: cs =>
    let r := handleCommand toLowerCase cfg reg c.run c.now cooldowns c.msg c.opts
    let r' := handleCommands toLowerCase cfg reg r.cooldowns cs
    (r'.1, r.effects ++ r'.2)

/-! ## The `messages.upsert` handlers of `lib/client.js` and `lib/index.js` -/

/-- The inbound text, `(msg.message.conversation || msg.message.extendedTextMessage?.text
|| '').trim()`. -/
def messageText (m : MsgContent) : Str :=
  Js.trim ((Js.orElse (Js.orElse m.conversation m.extendedText) (some [])).getD [])

/-- The bot's own identity, `client.user.id.split(':')[0]`. -/
def botIdentity (userId : Str) : Str := (Js.split ':' userId).headD []

/-- The command word and the arguments (client.js lines 117-119, index.js lines 91-93). -/
def parseCommand (toLowerCase : Str → Str) (prefixRegex : Js.Pattern) (text : Str) :
    Str × List Str :=
  let isCmd := Js.test prefixRegex text
  let cmdText := if isCmd then Js.trim (Js.replaceEmpty prefixRegex text) else text
  (toLowerCase ((Js.split ' ' cmdText).headD []), (Js.split ' ' cmdText).drop 1)

/-- The test `plugin.name === cmd || plugin.alias?.includes(cmd)`. -/
def pluginMatches (plugin : Plugin) (cmd : Str) : Bool :=
  plugin.name == some cmd ||
    (match plugin.aliases with
     | some as => as.contains cmd
     | none => false)

/-- The loop over the plugin files (client.js lines 125-135, index.js lines 99-109):
the first matching plugin that starts without throwing ends the loop; an error, of
`require` or of the handler, is logged and the loop goes on. `label` is the text in front
of the file name in the error line. -/
def pluginLoop (label : Str) (cfg : Config) (run : Handler) (msg : Msg) (cmd : Str)
    (args : List Str) : List PluginFile → List Effect
  | [] => []
  | f :: fs =>
    match f.load with
    | Except.error e =>
      Effect.consoleError (label ++ f.file ++ ": ".toList ++ e) ::
        pluginLoop label cfg run msg cmd args fs
    | Except.ok plugin =>
      if pluginMatches plugin cmd then
        let r := callStart "plugin".toList run plugin msg ⟨cfg.PREFIX, args, cmd, none, none⟩
        match r.2 with
        | Except.ok _ => r.1
        | Except.error e =>
          r.1 ++ Effect.consoleError (label ++ f.file ++ ": ".toList ++ e) ::
            pluginLoop label cfg run msg cmd args fs
      else pluginLoop label cfg run msg cmd args fs

/-- What both handlers do with one message (client.js lines 103-135, index.js lines
77-109). -/
def handleMessage (label : Str) (toLowerCase : Str → Str) (prefixRegex : Js.Pattern)
    (cfg : Config) (userId : Str) (dir : List PluginFile) (run : Handler) (msg : Msg) :
    List Effect :=
  match msg.message with
  | none => []
  | some content =>
    if msg.key.fromMe then []
    else
      let text := messageText content
      if text.isEmpty then []
      else
        let isCmd := Js.test prefixRegex text
        let isMention := Js.includes text (botIdentity userId)
        if !isCmd && !isMention then []
        else
          let p := parseCommand toLowerCase prefixRegex text
          pluginLoop label cfg run msg p.1 p.2 (commandFiles dir)

/-- The loop `for (const msg of messages)` of client.js. -/
def upsertLoop (toLowerCase : Str → Str) (prefixRegex : Js.Pattern) (cfg : Config)
    (userId : Str) (dir : List PluginFile) (run : Handler) : List Msg → List Effect
  | [] => []
  | msg :: rest =>
    handleMessage "Plugin error in ".toList toLowerCase prefixRegex cfg userId dir run msg ++
      upsertLoop toLowerCase prefixRegex cfg userId dir run rest

/-- The `messages.upsert` handler of `lib/client.js`, lines 99-137. -/
def clientUpsert (toLowerCase : Str → Str) (prefixRegex : Js.Pattern) (cfg : Config)
    (userId : Str) (dir : List PluginFile) (run : Handler) (messages : List Msg)
    (type : Str) : List Effect :=
  if type ≠ "notify".toList then []
  else upsertLoop toLowerCase prefixRegex cfg userId dir run messages

/-- The `messages.upsert` handler of `lib/index.js`, lines 75-110: only `m.messages[0]`
is looked at; on an empty array the property read throws. -/
def indexUpsert (toLowerCase : Str → Str) (prefixRegex : Js.Pattern) (cfg : Config)
    (userId : Str) (dir : List PluginFile) (run : Handler) (messages : List Msg) :
    Except Str (List Effect) :=
  match messages with
  | [] => Except.error "TypeError: cannot read properties of undefined".toList
  | msg :: _ =>
    Except.ok
      (handleMessage "[Plugin Error] ".toList toLowerCase prefixRegex cfg userId dir run msg)

/-! ## `lib/store.js` -/

/-- A participant of a group as the session reports it; `admin` is `'admin'`,
`'superadmin'` or absent. -/
structure Participant where
  id : Str
  admin : Option Str
deriving DecidableEq, Repr

/-- The object `client.groupMetadata(groupJid)` resolves to. `cachedAt` is the property
of that name on the object: the store never writes it, and the session's metadata
objects do not carry one (`none`). -/
structure GroupMetadata where
  id : Str
  subject : Str
  owner : Option Str
  desc : Option Str
  creation : Option Int
  participants : Option (List Participant)
  cachedAt : Option Int
deriving DecidableEq, Repr

/-- An entry of `participantCache`. -/
structure ParticipantEntry where
  participants : List Str
  admins : List Str
  owner : Option Str
  subject : Str
  desc : Str
  creation : Option Int
  cachedAt : Int
deriving DecidableEq, Repr

/-- The two module-level maps of the store. -/
structure Store where
  groupCache : JsMap GroupMetadata
  participantCache : JsMap ParticipantEntry
deriving DecidableEq, Repr

/-- The session's `groupMetadata(groupJid)`: it resolves to the metadata or throws. -/
abbrev Session := Str → Except Str GroupMetadata

/-- What a call of a store function leaves behind and returns; `result = none` is
`null`. -/
structure StoreResult where
  store : Store
  result : Option GroupMetadata
  effects : List Effect
deriving DecidableEq, Repr

/-- Truthiness of `p.admin`. -/
def Participant.isAdmin (p : Participant) : Bool :=
  match p.admin with
  | some (_ :: _) => true
  | _ => false

/-- The entry written to `participantCache`, lines 33-44. -/
def participantEntry (metadata : GroupMetadata) (now : Int) : ParticipantEntry :=
  let participants := metadata.participants.getD []
  let admins := (participants.filter Participant.isAdmin).map Participant.id
  ⟨participants.map Participant.id, admins, metadata.owner, metadata.subject,
    (Js.orElse metadata.desc (some [])).getD [], metadata.creation, now⟩

/-- The function `fetchGroupMetadata(groupJid, forceRefresh = false)`, lines 18-53. -/
def fetchGroupMetadata (session : Session) (now : Int) (st : Store) (groupJid : Str)
    (forceRefresh : Bool) : StoreResult :=
  if !Js.endsWith groupJid "@g.us".toList then ⟨st, none, []⟩
  else if !forceRefresh && st.groupCache.has groupJid then
    ⟨st, st.groupCache.get groupJid, []⟩
  else
    match session groupJid with
    | Except.ok metadata =>
      ⟨⟨st.groupCache.set groupJid metadata,
          st.participantCache.set groupJid (participantEntry metadata now)⟩,
        some metadata,
        [Effect.groupMetadata groupJid,
          Effect.consoleLog
            "[Store] Cached metadata for ( \x7bgroupJid\x7d ( )\x7bmetadata.subject\x7d)".toList]⟩
    | Except.error e =>
      ⟨st, none,
        [Effect.groupMetadata groupJid,
          Effect.consoleError
            ("[Store] Failed to fetch metadata for ".toList ++ groupJid ++ ": ".toList ++ e)]⟩

/-- The test `cached && (now - cached.cachedAt) < maxAge` of `getGroupMetadata`: with
`cachedAt` undefined the difference is `NaN` and the comparison is false. -/
def isFresh (cached : Option GroupMetadata) (now maxAge : Int) : Bool :=
  match cached with
  | none => false
  | some m =>
    match m.cachedAt with
    | none => false
    | some t => decide (now - t < maxAge)

/-- The function `getGroupMetadata(groupJid, maxAge = 5 * 60 * 1000)`, lines 60-69. -/
def getGroupMetadata (session : Session) (now : Int) (st : Store) (groupJid : Str)
    (maxAge : Int) : StoreResult :=
  let cached := st.groupCache.get groupJid
  if isFresh cached now maxAge then ⟨st, cached, []⟩
  else fetchGroupMetadata session now st groupJid true

/-- The function `clearGroupCache(groupJid)`, lines 124-128. -/
def clearGroupCache (st : Store) (groupJid : Str) : Store × List Effect :=
  (⟨st.groupCache.delete groupJid, st.participantCache.delete groupJid⟩,
    [Effect.consoleLog ("[Store] Cleared cache for ".toList ++ groupJid)])

/-- The `group-participants.update` listener, lines 112-118: a forced fetch, then the
"Refreshed cache" line, whatever the fetch returned. -/
def onParticipantsUpdate (session : Session) (now : Int) (st : Store) (groupJid : Str) :
    Store × List Effect :=
  let r := fetchGroupMetadata session now st groupJid true
  (r.store,
    r.effects ++ [Effect.consoleLog ("[Store] Refreshed cache for ".toList ++ groupJid ++
      " after participant update".toList)])

/-- What `getGroupParticipants` leaves behind and returns; `result = none` is `null` or
`undefined`. -/
structure ParticipantsResult where
  store : Store
  result : Option ParticipantEntry
  effects : List Effect
deriving DecidableEq, Repr

/-- The function `getGroupParticipants(groupJid)`, lines 75-83. -/
def getGroupParticipants (session : Session) (now : Int) (st : Store) (groupJid : Str) :
    ParticipantsResult :=
  match st.participantCache.get groupJid with
  | some cached => ⟨st, some cached, []⟩
  | none =>
    let r := fetchGroupMetadata session now st groupJid false
    match r.result with
    | none => ⟨r.store, none, r.effects⟩
    | some _ => ⟨r.store, r.store.participantCache.get groupJid, r.effects⟩

/-- What `isGroupAdmin` and `isGroupOwner` leave behind and return. -/
structure CheckResult where
  store : Store
  result : Bool
  effects : List Effect
deriving DecidableEq, Repr

/-- The function `isGroupAdmin(groupJid, userJid)`, lines 90-95. -/
def isGroupAdmin (session : Session) (now : Int) (st : Store) (groupJid userJid : Str) :
    CheckResult :=
  let r := getGroupParticipants session now st groupJid
  match r.result with
  | none => ⟨r.store, false, r.effects⟩
  | some data => ⟨r.store, data.admins.contains userJid, r.effects⟩

/-- The function `isGroupOwner(groupJid, userJid)`, lines 102-107. -/
def isGroupOwner (session : Session) (now : Int) (st : Store) (groupJid userJid : Str) :
    CheckResult :=
  let r := getGroupParticipants session now st groupJid
  match r.result with
  | none => ⟨r.store, false, r.effects⟩
  | some data =>
    match data.owner with
    | some (c :: cs) => ⟨r.store, decide (c :: cs = userJid), r.effects⟩
    | _ => ⟨r.store, false, r.effects⟩

/-! ## `handleCommand` in steps, and `reloadCommands` -/

/-- The module-level state of `lib/cmd.js`. -/
structure CmdModule where
  cooldowns : JsMap Int
  registry : Registry
deriving DecidableEq, Repr

/-- The local variables of a call of `handleCommand` that has passed line 72: the chat,
the sender, the two flags, the resolved name and the plugin object found under it. -/
structure Resolved where
  frm : Str
  sender : Str
  isGroup : Bool
  sudoSender : Bool
  cmdName : Str
  cmd : Plugin
deriving DecidableEq, Repr

/-- Lines 48-72 of `handleCommand`: the cooldown check and the resolution of the command
word, on the module state. The call either returns there or goes on with its locals. -/
def resolveStep (toLowerCase : Str → Str) (cfg : Config) (now : Int) (m : CmdModule)
    (msg : Msg) (o : Opts) : CmdModule × (Exit ⊕ Resolved) :=
  let frm := msg.key.remoteJid
  let sender := senderOf msg
  let isGroup := Js.endsWith frm "@g.us".toList
  let sudoSender := isSudo cfg sender
  let lastUsed := (m.cooldowns.get sender).getD 0
  if !sudoSender && decide (now - lastUsed < 2000) then (m, Sum.inl Exit.rateLimited)
  else
    let m1 : CmdModule :=
      ⟨if sudoSender then m.cooldowns else m.cooldowns.set sender now, m.registry⟩
    let cmdName := resolveName toLowerCase m1.registry o.command
    match m1.registry.commands.get cmdName with
    | none => (m1, Sum.inl Exit.unknown)
    | some cmd => (m1, Sum.inr ⟨frm, sender, isGroup, sudoSender, cmdName, cmd⟩)

/-- Lines 74-89 of `handleCommand`: the permission check and the call of the handler, run
on whatever the module state is by then. -/
def finishStep (run : Handler) (m : CmdModule) (msg : Msg) (o : Opts) (loc : Resolved) :
    CmdModule × List Effect × Exit :=
  if loc.cmd.sudoOnly && !loc.sudoSender then
    (m, [Effect.sendMessage loc.frm "_This command is only for SUDO/OWNER_".toList],
      Exit.forbidden)
  else
    let a : StartArgs := ⟨o.pfx, o.args, loc.cmdName, some loc.sudoSender, some loc.isGroup⟩
    let r := callStart "cmd".toList run loc.cmd msg a
    match r.2 with
    | Except.ok _ =>
      (m,
        r.1 ++ [Effect.consoleLog ("[CMD] ".toList ++ (Js.split '@' loc.sender).headD [] ++
          " used: ".toList ++ loc.cmdName ++ ' ' :: Js.join ' ' o.args)],
        Exit.done)
    | Except.error e =>
      (m,
        r.1 ++ [Effect.consoleError ("[CMD ERROR] ".toList ++ loc.cmdName ++ ": ".toList ++ e),
          Effect.sendMessage loc.frm "_Error executing command. Contact owner._".toList],
        Exit.failed)

/-- The function `reloadCommands()`, lines 96-122: both maps are cleared and filled again
from the files as `require` loads them now. -/
def reloadCommands (toLowerCase : Str → Str) (dir : List PluginFile) (m : CmdModule) :
    CmdModule × List Effect :=
  let r := loadFiles toLowerCase false ⟨[], []⟩ (commandFiles dir)
  (⟨m.cooldowns, r.1⟩, r.2 ++ [Effect.consoleLog "[DEX Nova] Commands reloaded".toList])

/-! ## `launcher.js`: the restart counter of `startNode` -/

/-- The module-level variables `nodeRestartCount` and `lastRestartTime`. -/
structure NodeSupervisor where
  nodeRestartCount : Nat
  lastRestartTime : Int
deriving DecidableEq, Repr

/-- The constant `maxNodeRestarts`. -/
def maxNodeRestarts : Nat := 5

/-- The constant `restartWindow`, in milliseconds. -/
def restartWindow : Int := 30000

/-- What the exit handler does to the outside world: the call `startNode()`, which spawns
the next child, the "Restarting" line of line 34 (it shows the exit code), and the
"too frequently" line of line 30. -/
inductive LaunchEffect where
  | startNode
  | logRestarting (code : Option Int)
  | logTooFrequent
deriving DecidableEq, Repr

/-- The `exit` handler of the child spawned by `startNode`, lines 20-37. `code = none` is
the `null` of a child killed by a signal. -/
def startNodeOnExit (st : NodeSupervisor) (code : Option Int) (currentTime : Int) :
    NodeSupervisor × List LaunchEffect :=
  if code = some 0 then (st, [])
  else
    let count :=
      if currentTime - st.lastRestartTime > restartWindow then 0 else st.nodeRestartCount
    let st1 : NodeSupervisor := ⟨count + 1, currentTime⟩
    if st1.nodeRestartCount > maxNodeRestarts then (st1, [LaunchEffect.logTooFrequent])
    else (st1, [LaunchEffect.logRestarting code, LaunchEffect.startNode])

/-- The exit events of the chain of children of `startNode`, each with its code and the
clock reading. An exit that does not call `startNode()` leaves no child, so no later
event of the list can arrive: the run stops there. The result lists what each handled
event did. -/
def nodeExits : NodeSupervisor → List (Option Int × Int) →
    NodeSupervisor × List (List LaunchEffect)
  | st, [] => (st, [])
  | st, (code, t) :: rest =>
    let r := startNodeOnExit st code t
    if LaunchEffect.startNode ∈ r.2 then
      let r1 := nodeExits r.1 rest
      (r1.1, r.2 :: r1.2)
    else (r.1, [r.2])

/-! ## The `connection.update` handlers of `lib/client.js` and `lib/legacy_client.js` -/

/-- The value of `lastDisconnect.error`: its text as `String(error)` gives it, and
`error.output?.statusCode`. -/
structure DisconnectError where
  text : Str
  statusCode : Option Int
deriving DecidableEq, Repr

/-- The value of `lastDisconnect`. -/
structure LastDisconnect where
  error : Option DisconnectError
deriving DecidableEq, Repr

/-- The `update` of a `connection.update` event. -/
structure ConnectionUpdate where
  connection : Option Str
  lastDisconnect : Option LastDisconnect
  qr : Option Str
deriving DecidableEq, Repr

/-- What a `connection.update` handler does to the outside world; `reconnect` is the call
`startClient()` (or `startLegacyClient()`). -/
inductive ConnEffect where
  | reconnect
  | consoleLog (line : Str)
  | sendMessage (jid : Str) (text : Str)
deriving DecidableEq, Repr

/-- The expression `lastDisconnect?.error?.output?.statusCode`. -/
def disconnectStatusCode (u : ConnectionUpdate) : Option Int :=
  match u.lastDisconnect with
  | none => none
  | some d =>
    match d.error with
    | none => none
    | some e => e.statusCode

/-- The text of `lastDisconnect?.error` inside a template literal. -/
def disconnectErrorText (u : ConnectionUpdate) : Option Str :=
  match u.lastDisconnect with
  | none => none
  | some d => d.error.map DisconnectError.text

/-- The `connection.update` handler, client.js lines 60-96 and (`legacy = true`)
legacy_client.js lines 64-99. `loggedOut` is `DisconnectReason.loggedOut`, `sessionId` is
`config.SESSION_ID` and `alive` is the text of `getAlive()`. -/
def connectionUpdate (legacy : Bool) (loggedOut : Int) (cfg : Config) (sessionId : Str)
    (alive : Str) (u : ConnectionUpdate) : List ConnEffect :=
  let qrPart :=
    match u.qr with
    | some (_ :: _) =>
      [ConnEffect.consoleLog
        (if legacy then "[Legacy] Scan QR for legacy session pairing".toList
         else "[DEX Nova] Scan QR to pair session".toList)]
    | _ => []
  let closePart :=
    if u.connection = some "close".toList then
      let statusCode := disconnectStatusCode u
      let shouldReconnect := statusCode ≠ some loggedOut
      let shown :=
        if legacy then (Js.orElse (disconnectErrorText u) (some "Unknown".toList)).getD []
        else (disconnectErrorText u).getD "undefined".toList
      [ConnEffect.consoleLog
          ((if legacy then "[Legacy] Connection closed: " else "Connection closed: ").toList ++
            shown),
        ConnEffect.consoleLog
          ("Reconnect? ".toList ++ (if shouldReconnect then "Yes" else "No (logged out)").toList)]
        ++
        (if shouldReconnect then [ConnEffect.reconnect]
         else
          [ConnEffect.consoleLog
            (if legacy then
              "[Legacy] Logged out. Delete legacy session folder to pair again.".toList
             else "[DEX Nova] Logged out. Clear sessions and pair again.".toList)])
    else []
  let openPart :=
    if u.connection = some "open".toList then
      let aliveMsg := if legacy then alive ++ "\n(Using Legacy Client)".toList else alive
      [ConnEffect.consoleLog
          (if legacy then "[Legacy] Connected! Session: ".toList ++ sessionId ++ "_legacy".toList
           else "[DEX Nova] Connected! Session: ".toList ++ sessionId),
        ConnEffect.consoleLog aliveMsg] ++
        (if cfg.SUDO.isEmpty then []
         else
          ((Js.split ',' cfg.SUDO).map
            (fun n => ConnEffect.sendMessage (Js.trim n ++ "@s.whatsapp.net".toList) aliveMsg)))
    else []
  qrPart ++ closePart ++ openPart

/-! ## `lib/nr.js` -/

/-- The function `numToJid(number)`, lines 57-69, on a number given as a string. -/
def numToJid (number : Str) : Except Str Str :=
  let cleaned := number.filter Char.isDigit
  let cleaned := if !Js.startsWith cleaned "91".toList then "91".toList ++ cleaned else cleaned
  if cleaned.length ≠ 12 then Except.error "Invalid Indian phone number".toList
  else Except.ok (cleaned ++ "@s.whatsapp.net".toList)

/-! ## `launcher.js`: the restart counter of `startPm2` -/

/-- The local variable `restartCount` of `startPm2`. -/
structure Pm2Supervisor where
  restartCount : Nat
deriving DecidableEq, Repr

/-- The constant `maxRestarts` of `startPm2`. -/
def maxRestarts : Nat := 5

/-- What the `stderr` handler of `startPm2` does to the outside world: the "switching to
node" line, the `pm2 delete` command and the call `startNode()`. -/
inductive Pm2Effect where
  | logSwitching
  | pm2Delete
  | startNode
deriving DecidableEq, Repr

/-- The `data` handler on `pm2.stderr`, lines 63-73, on the text of one chunk. -/
def pm2OnStderr (st : Pm2Supervisor) (output : Str) : Pm2Supervisor × List Pm2Effect :=
  if Js.includes output "restart".toList then
    let st1 : Pm2Supervisor := ⟨st.restartCount + 1⟩
    if st1.restartCount > maxRestarts then
      (st1, [Pm2Effect.logSwitching, Pm2Effect.pm2Delete, Pm2Effect.startNode])
    else (st1, [])
  else (st, [])

/-- The counter of `startPm2` after each of a list of `stderr` chunks, every chunk given
with the time at which it arrives (the handler never reads the clock). -/
def pm2Counts : Pm2Supervisor → List (Int × Str) → List Nat
  | _, [] => []
  | st, (_, output) :: rest =>
    (pm2OnStderr st output).1.restartCount :: pm2Counts (pm2OnStderr st output).1 rest

/-- The counter of `startNode` after each of a list of exits with a non-zero code, given
by their times. -/
def nodeCounts : NodeSupervisor → List Int → List Nat
  | _, [] => []
  | st, t :: rest =>
    (startNodeOnExit st (some 1) t).1.nodeRestartCount ::
      nodeCounts (startNodeOnExit st (some 1) t).1 rest

/-! ## The `connection.update` handlers of `lib/auth.js` and `lib/index.js` -/

/-- What the two handlers do to the outside world. Each of the calls
`connectToWhatsApp(sessionId)` and `startBot()` creates one socket with `makeWASocket`
(`startBot` through its own call of `connectToWhatsApp`). -/
inductive BootEffect where
  | connectToWhatsApp (sessionId : Str)
  | startBot
  | consoleLog (line : Str)
  | qrGenerate (qr : Str)
  | sendMessage (jid : Str) (text : Str)
deriving DecidableEq, Repr

/-- The handler `connectToWhatsApp` puts on its socket, auth.js lines 49-68. The
arguments of a `console.log` call are joined by spaces. -/
def authConnectionUpdate (loggedOut : Int) (sessionId : Str) (u : ConnectionUpdate) :
    List BootEffect :=
  let qrPart :=
    match u.qr with
    | some (_ :: _) =>
      [BootEffect.consoleLog
        ("[DEX Nova] Scan this QR code to pair session: ".toList ++ sessionId)]
    | _ => []
  let rest :=
    if u.connection = some "close".toList then
      let shouldReconnect := disconnectStatusCode u ≠ some loggedOut
      [BootEffect.consoleLog
          ("[DEX Nova] Connection closed: ".toList ++
            (disconnectErrorText u).getD "undefined".toList ++ " Reconnecting? ".toList ++
            (if shouldReconnect then "true" else "false").toList)] ++
        (if shouldReconnect then [BootEffect.connectToWhatsApp sessionId]
         else
          [BootEffect.consoleLog
            "[DEX Nova] Logged out. Delete session and pair again.".toList])
    else if u.connection = some "open".toList then
      [BootEffect.consoleLog
        ("[DEX Nova] Connected successfully! Session: ".toList ++ sessionId)]
    else []
  qrPart ++ rest

/-- The handler `startBot` puts on the socket it got from `connectToWhatsApp`, index.js
lines 37-72. `alive` is the text of `getAlive()`. -/
def indexConnectionUpdate (loggedOut : Int) (cfg : Config) (sessionId alive : Str)
    (u : ConnectionUpdate) : List BootEffect :=
  let qrPart :=
    match u.qr with
    | some (c :: cs) =>
      [BootEffect.consoleLog "[DEX Nova] Scan QR to pair:".toList,
        BootEffect.qrGenerate (c :: cs)]
    | _ => []
  let rest :=
    if u.connection = some "close".toList then
      let shouldReconnect := disconnectStatusCode u ≠ some loggedOut
      [BootEffect.consoleLog
          ("[DEX Nova] Connection closed: ".toList ++
            (disconnectErrorText u).getD "undefined".toList),
        BootEffect.consoleLog
          ("Reconnecting? ".toList ++
            (if shouldReconnect then "Yes" else "No (logged out)").toList)] ++
        (if shouldReconnect then [BootEffect.startBot]
         else
          [BootEffect.consoleLog
            "[DEX Nova] Logged out. Delete sessions folder and pair again.".toList])
    else if u.connection = some "open".toList then
      [BootEffect.consoleLog
          ("[DEX Nova] Connected successfully! Session: ".toList ++ sessionId),
        BootEffect.consoleLog alive] ++
        (if cfg.SUDO.isEmpty then []
         else
          ((Js.split ',' cfg.SUDO).map
            (fun num => BootEffect.sendMessage (Js.trim num ++ "@s.whatsapp.net".toList)
              alive)))
    else []
  qrPart ++ rest

/-- A `connection.update` event on a socket obtained through `startBot`: the socket
carries the handler of `connectToWhatsApp`, put on first, and the handler of `startBot`;
both run. -/
def startBotSocketUpdate (loggedOut : Int) (cfg : Config) (sessionId alive : Str)
    (u : ConnectionUpdate) : List BootEffect :=
  authConnectionUpdate loggedOut sessionId u ++
    indexConnectionUpdate loggedOut cfg sessionId alive u

/-- Number of sockets created by a list of effects. -/
def socketsCreated : List BootEffect → Nat
  | [] => 0
  | BootEffect.connectToWhatsApp _ :: es => socketsCreated es + 1
  | BootEffect.startBot :: es => socketsCreated es + 1
  | _ :: es => socketsCreated es

/-! ## Reachable states of `lib/store.js` -/

/-- A call into the store: one of the exported functions or the membership-change
listener, with the session's behaviour and the clock at that moment. -/
inductive StoreOp where
  | fetch (session : Session) (now : Int) (groupJid : Str) (forceRefresh : Bool)
  | getMetadata (session : Session) (now : Int) (groupJid : Str) (maxAge : Int)
  | getParticipants (session : Session) (now : Int) (groupJid : Str)
  | isAdmin (session : Session) (now : Int) (groupJid userJid : Str)
  | isOwner (session : Session) (now : Int) (groupJid userJid : Str)
  | participantsUpdate (session : Session) (now : Int) (groupJid : Str)
  | clear (groupJid : Str)

/-- The store after a call. -/
def StoreOp.apply (st : Store) : StoreOp → Store
  | StoreOp.fetch session now g force => (fetchGroupMetadata session now st g force).store
  | StoreOp.getMetadata session now g maxAge => (getGroupMetadata session now st g maxAge).store
  | StoreOp.getParticipants session now g => (getGroupParticipants session now st g).store
  | StoreOp.isAdmin session now g u => (isGroupAdmin session now st g u).store
  | StoreOp.isOwner session now g u => (isGroupOwner session now st g u).store
  | StoreOp.participantsUpdate session now g => (onParticipantsUpdate session now st g).1
  | StoreOp.clear g => (clearGroupCache st g).1

/-- The store after a sequence of calls. -/
def runOps : Store → List StoreOp → Store
  | st, [] => st
  | st, op :: ops => runOps (op.apply st) ops

/-- The two caches hold the same group ids, in the same order, and in every participant
entry the list of admins is a sublist of the list of participants. -/
def Store.Consistent (st : Store) : Prop :=
  st.groupCache.map Prod.fst = st.participantCache.map Prod.fst ∧
  ∀ g e, st.participantCache.get g = some e → List.Sublist e.admins e.participants

/-! ## `lib/nr.js`: `formatNumber` -/

/-- Decimal digits of `n`, at least `width` of them (zeros in front). -/
def padDigits (width n : Nat) : Str :=
  let ds := Nat.toDigits 10 n
  List.replicate (width - ds.length) '0' ++ ds

/-- Text of `x.toFixed(decimals)` for the number `x = num / den`, taken as an exact
fraction: the nearest multiple of `10^-decimals`, the larger one on a tie. -/
def toFixed (num den decimals : Nat) : Str :=
  let r := (2 * num * 10 ^ decimals + den) / (2 * den)
  let whole := Nat.toDigits 10 (r / 10 ^ decimals)
  if decimals = 0 then whole else whole ++ '.' :: padDigits decimals (r % 10 ^ decimals)

/-- Text of `s.replace(/\.0+$/, '')`: a final point followed by zeros only is cut off. -/
def stripPointZeros (s : Str) : Str :=
  match s.reverse.dropWhile (fun c => c == '0') with
  | '.' :: rest => if s.reverse.head? = some '0' then rest.reverse else s
  | _ => s

/-- Value of `Math.floor(Math.log10(absNum) / 3)` in exact arithmetic, for
`absNum ≥ 1`: how often `absNum` can be divided by 1000 before it falls below 1000. The
first argument bounds the recursion. -/
def exponentOf : Nat → Nat → Nat
  | 0, _ => 0
  | fuel + 1, absNum => if absNum < 1000 then 0 else exponentOf fuel (absNum / 1000) + 1

/-- The array `units`. -/
def units : List Str :=
  ["".toList, "K".toList, "M".toList, "B".toList, "T".toList, "Q".toList, "Qi".toList,
    "Sx".toList, "Sp".toList, "Oc".toList, "No".toList, "Dc".toList]

/-- The function `formatNumber(num, decimals = 1)`, lines 10-26, on an integer `num`,
with `Math.log10`, the division and `toFixed` taken in exact arithmetic. A `decimals`
above 100 makes `toFixed` throw a `RangeError`. -/
def formatNumber (num : Int) (decimals : Nat) : Except Str Str :=
  if num = 0 then Except.ok "0".toList
  else if decimals > 100 then Except.error "RangeError".toList
  else
    let absNum := num.natAbs
    let sign := if num < 0 then "-".toList else []
    if absNum < 1000 then Except.ok (sign ++ stripPointZeros (toFixed absNum 1 decimals))
    else
      let exponent := exponentOf absNum absNum
      let unit :=
        (Js.orElse (units.get? exponent)
          (some ('e' :: Nat.toDigits 10 (exponent * 3)))).getD []
      Except.ok (sign ++ toFixed absNum (1000 ^ exponent) decimals ++ unit)

/-! ## Concrete inputs used by the examples below -/

namespace Example

/-- The configuration with the default prefix and one elevated number. -/
def cfg : Config := ⟨"^[.,!]".toList, "919876543210".toList⟩

/-- The configuration with prefix `.` and one elevated number. -/
def cfgDot : Config := ⟨".".toList, "919876543210".toList⟩

/-- The bot's `user.id`. -/
def userId : Str := "911234567890:7@s.whatsapp.net".toList

/-- An ordinary plugin `ping` with the alias `p`. -/
def ping : Plugin := ⟨some "ping".toList, true, some ["p".toList], false⟩

/-- A plugin reserved to the elevated identities. -/
def shutdown : Plugin := ⟨some "shutdown".toList, true, none, true⟩

/-- The `plugins/` directory. -/
def dir : List PluginFile :=
  [⟨"ping.js".toList, Except.ok ping⟩, ⟨"shutdown.js".toList, Except.ok shutdown⟩]

/-- Handlers that all resolve. -/
def runOk : Handler := fun _ _ _ => Except.ok ()

/-- Handlers that all throw an error with the given message. -/
def runThrow (e : Str) : Handler := fun _ _ _ => Except.error e

/-- A private message with the given text from a sender who is not elevated. -/
def textFrom (text : Str) : Msg :=
  ⟨⟨"15550001111@s.whatsapp.net".toList, none, false⟩, some ⟨some text, none⟩⟩

/-- A private message with the given text from the elevated sender. -/
def textFromOwner (text : Str) : Msg :=
  ⟨⟨"919876543210@s.whatsapp.net".toList, none, false⟩, some ⟨some text, none⟩⟩

/-- The registry `lib/cmd.js` builds from the directory. -/
def reg : Registry := (loadCommands Js.asciiLower dir).1

/-- The sender of `textFrom`. -/
def stranger : Str := "15550001111@s.whatsapp.net".toList

/-- A group id. -/
def group : Str := "120363041234567890@g.us".toList

/-- The metadata the session reports for the group; as every metadata object of the
session it has no `cachedAt` property. -/
def metadata : GroupMetadata :=
  ⟨group, "Friends".toList, some "919876543210@s.whatsapp.net".toList, none,
    some 1690000000,
    some [⟨"919876543210@s.whatsapp.net".toList, some "superadmin".toList⟩,
      ⟨"15550001111@s.whatsapp.net".toList, none⟩],
    none⟩

/-- The metadata the session reports after the subject was changed. -/
def metadataRenamed : GroupMetadata :=
  ⟨metadata.id, "Colleagues".toList, metadata.owner, metadata.desc, metadata.creation,
    metadata.participants, metadata.cachedAt⟩

/-- A session that reports `metadata`. -/
def session : Session := fun _ => Except.ok metadata

/-- A session that reports `metadataRenamed`. -/
def sessionRenamed : Session := fun _ => Except.ok metadataRenamed

/-- The store after the group was fetched and cached at time 0. -/
def fetchedAt0 : Store := (fetchGroupMetadata session 0 ⟨[], []⟩ group true).store

/-- A session whose `groupMetadata` call fails. -/
def sessionDown : Session := fun _ => Except.error "Connection Closed".toList

/-- The metadata the session reports after the second participant was made an admin. -/
def metadataPromoted : GroupMetadata :=
  ⟨metadata.id, metadata.subject, metadata.owner, metadata.desc, metadata.creation,
    some [⟨"919876543210@s.whatsapp.net".toList, some "superadmin".toList⟩,
      ⟨"15550001111@s.whatsapp.net".toList, some "admin".toList⟩],
    metadata.cachedAt⟩

/-- A session that reports `metadataPromoted`. -/
def sessionPromoted : Session := fun _ => Except.ok metadataPromoted

/-- A plugin whose name has a capital letter. -/
def pingCapital : Plugin := ⟨some "Ping".toList, true, none, false⟩

/-- A `plugins/` directory with that plugin only. -/
def dirCapital : List PluginFile := [⟨"ping.js".toList, Except.ok pingCapital⟩]

/-- A second plugin that answers to `ping`, through its alias. -/
def pong : Plugin := ⟨some "pong".toList, true, some ["ping".toList], false⟩

/-- A `plugins/` directory in which two plugins match the command word `ping`. -/
def dirTwo : List PluginFile :=
  [⟨"ping.js".toList, Except.ok ping⟩, ⟨"pong.js".toList, Except.ok pong⟩]

/-- A close event with status code 428 (connection closed), not the logged-out code. -/
def closeEvent : ConnectionUpdate :=
  ⟨some "close".toList, some ⟨some ⟨"Error: Connection Closed".toList, some 428⟩⟩, none⟩

/-- The configuration with the default prefix and the default, empty `SUDO`. -/
def cfgNoSudo : Config := ⟨"^[.,!]".toList, []⟩

/-- A message from a JID with an empty user part. -/
def textFromServer (text : Str) : Msg :=
  ⟨⟨"@s.whatsapp.net".toList, none, false⟩, some ⟨some text, none⟩⟩

/-- Handlers of which the one of `ping` throws and the others resolve. -/
def runPingThrows : Handler :=
  fun plugin _ _ => if plugin = ping then Except.error "boom".toList else Except.ok ()

/-- A close event with status code 401, the logged-out code. -/
def loggedOutEvent : ConnectionUpdate :=
  ⟨some "close".toList, some ⟨some ⟨"Error: Connection Failure".toList, some 401⟩⟩, none⟩

/-- Two restart reports of PM2, one and two seconds after 1700000000000. -/
def restartsClose : List (Int × Str) :=
  [(1700000001000, "PM2 | App [dex-nova] restart".toList),
    (1700000002000, "PM2 | App [dex-nova] restart".toList)]

end Example

/-! ## Theorems -/

/-! ### Inbound-message path -/

theorem handleMessage_ignored (label : Str) (toLowerCase : Str → Str)
    (prefixRegex : Js.Pattern) (cfg : Config) (userId : Str) (dir : List PluginFile)
    (run : Handler) (msg : Msg)
    (h : ∀ content, msg.message = some content →
      Js.test prefixRegex (messageText content) = false ∧
      Js.includes (messageText content) (botIdentity userId) = false) :
    handleMessage label toLowerCase prefixRegex cfg userId dir run msg = [] := by
  unfold handleMessage
  cases hm : msg.message with
  | none => rfl
  | some content =>
    obtain ⟨h1, h2⟩ := h content hm
    simp [h1, h2]

/-- C1: when the trimmed text of every message of an upsert event neither matches the
prefix pattern nor contains the bot's own identity, the handler of `lib/client.js` does
nothing at all (no plugin handler is started, nothing is sent, nothing is logged), and
the handler of `lib/index.js`, which looks at the first message only, does nothing
either. The handlers own no state, so none is changed. -/
theorem unaddressed_text_is_ignored (toLowerCase : Str → Str) (prefixRegex : Js.Pattern)
    (cfg : Config) (userId : Str) (dir : List PluginFile) (run : Handler)
    (messages : List Msg) (type : Str)
    (h : ∀ msg ∈ messages, ∀ content, msg.message = some content →
      Js.test prefixRegex (messageText content) = false ∧
      Js.includes (messageText content) (botIdentity userId) = false) :
    clientUpsert toLowerCase prefixRegex cfg userId dir run messages type = [] ∧
    (messages ≠ [] →
      indexUpsert toLowerCase prefixRegex cfg userId dir run messages = Except.ok []) := by
  constructor
  · unfold clientUpsert
    split
    · rfl
    · induction messages with
      | nil => rfl
      | cons msg rest ih =>
        have h1 := handleMessage_ignored "Plugin error in ".toList toLowerCase prefixRegex
          cfg userId dir run msg (h msg (List.mem_cons_self _ _))
        have h2 := ih (fun m hm => h m (List.mem_cons_of_mem _ hm))
        simp only [upsertLoop, h1, h2, List.append_nil]
  · intro hne
    cases messages with
    | nil => exact absurd rfl hne
    | cons msg rest =>
      have h1 := handleMessage_ignored "[Plugin Error] ".toList toLowerCase prefixRegex
        cfg userId dir run msg (h msg (List.mem_cons_self _ _))
      simp only [indexUpsert, h1]

/-- Witness of C1: the text "hello there" under the default prefix pattern. -/
theorem unaddressed_text_is_ignored_witness :
    clientUpsert Js.asciiLower Js.caretClass Example.cfg Example.userId Example.dir
        Example.runOk [Example.textFrom "hello there".toList] "notify".toList = [] ∧
    ([Example.textFrom "hello there".toList] ≠ [] →
      indexUpsert Js.asciiLower Js.caretClass Example.cfg Example.userId Example.dir
        Example.runOk [Example.textFrom "hello there".toList] = Except.ok []) :=
  unaddressed_text_is_ignored Js.asciiLower Js.caretClass Example.cfg Example.userId
    Example.dir Example.runOk [Example.textFrom "hello there".toList] "notify".toList
    (by
      intro msg hm content hc
      rw [List.mem_singleton] at hm
      subst hm
      cases hc
      decide)

/-- C2, the code at a failing input: the text `.shutdown` from a sender who is not in
`SUDO` starts the handler of the `sudoOnly` plugin `shutdown`, in the handler of
`lib/client.js` and in the handler of `lib/index.js` alike. -/
theorem upsert_starts_sudoOnly_plugin_for_anyone :
    isSudo Example.cfg (senderOf (Example.textFrom ".shutdown".toList)) = false ∧
    Example.shutdown.sudoOnly = true ∧
    clientUpsert Js.asciiLower Js.caretClass Example.cfg Example.userId Example.dir
        Example.runOk [Example.textFrom ".shutdown".toList] "notify".toList =
      [Effect.start Example.shutdown (Example.textFrom ".shutdown".toList)
        ⟨Example.cfg.PREFIX, [], "shutdown".toList, none, none⟩] ∧
    indexUpsert Js.asciiLower Js.caretClass Example.cfg Example.userId Example.dir
        Example.runOk [Example.textFrom ".shutdown".toList] =
      Except.ok [Effect.start Example.shutdown (Example.textFrom ".shutdown".toList)
        ⟨Example.cfg.PREFIX, [], "shutdown".toList, none, none⟩] := by
  refine ⟨by decide, by decide, by decide, by rfl⟩

/-! ### `Map` lemmas -/

theorem JsMap.get_set_self {V : Type} (m : JsMap V) (k : Str) (v : V) :
    JsMap.get (JsMap.set m k v) k = some v := by
  induction m with
  | nil => simp [JsMap.set, JsMap.get]
  | cons e m ih =>
    obtain ⟨k', v'⟩ := e
    by_cases hk : k' = k
    · simp [JsMap.set, JsMap.get, hk]
    · simp [JsMap.set, JsMap.get, hk, ih]

theorem JsMap.get_set_ne {V : Type} (m : JsMap V) (k j : Str) (v : V) (h : k ≠ j) :
    JsMap.get (JsMap.set m k v) j = JsMap.get m j := by
  induction m with
  | nil => simp [JsMap.set, JsMap.get, h]
  | cons e m ih =>
    obtain ⟨k', v'⟩ := e
    by_cases hk : k' = k
    · subst hk
      simp [JsMap.set, JsMap.get, h]
    · by_cases hj : k' = j
      · subst hj
        simp [JsMap.set, JsMap.get, hk]
      · simp [JsMap.set, JsMap.get, hk, hj, ih]

theorem JsMap.get_delete_self {V : Type} (m : JsMap V) (k : Str) :
    JsMap.get (JsMap.delete m k) k = none := by
  induction m with
  | nil => rfl
  | cons e m ih =>
    obtain ⟨k', v'⟩ := e
    by_cases hk : k' = k
    · have : JsMap.delete ((k', v') :: m) k = JsMap.delete m k := by
        simp [JsMap.delete, hk]
      rw [this, ih]
    · have : JsMap.delete ((k', v') :: m) k = (k', v') :: JsMap.delete m k := by
        simp [JsMap.delete, hk]
      rw [this]
      simp [JsMap.get, hk, ih]

/-! ### `handleCommand` -/

theorem startCount_append (xs ys : List Effect) :
    startCount (xs ++ ys) = startCount xs + startCount ys := by
  induction xs with
  | nil => simp [startCount]
  | cons e xs ih =>
    cases e with
    | start p m a =>
      show startCount (xs ++ ys) + 1 = startCount xs + 1 + startCount ys
      omega
    | sendMessage _ _ => exact ih
    | groupMetadata _ => exact ih
    | consoleLog _ => exact ih
    | consoleError _ => exact ih

theorem sent_append (xs ys : List Effect) : sent (xs ++ ys) = sent xs ++ sent ys := by
  induction xs with
  | nil => simp [sent]
  | cons e xs ih =>
    cases e <;> simp [sent, ih]

/-- Every handler `handleCommand` starts is the one registered under the resolved name,
started on the message at hand with `command` set to the resolved name, and it has
passed the permission check. -/
theorem handleCommand_start_mem (toLowerCase : Str → Str) (cfg : Config) (reg : Registry)
    (run : Handler) (now : Int) (cooldowns : JsMap Int) (msg : Msg) (o : Opts)
    (p : Plugin) (m : Msg) (a : StartArgs)
    (h : Effect.start p m a ∈
      (handleCommand toLowerCase cfg reg run now cooldowns msg o).effects) :
    reg.commands.get (resolveName toLowerCase reg o.command) = some p ∧ m = msg ∧
    a = ⟨o.pfx, o.args, resolveName toLowerCase reg o.command,
      some (isSudo cfg (senderOf msg)), some (Js.endsWith msg.key.remoteJid "@g.us".toList)⟩ ∧
    (p.sudoOnly && !isSudo cfg (senderOf msg)) = false := by
  unfold handleCommand at h
  simp only at h
  split at h
  · simp at h
  · split at h
    · simp at h
    · rename_i cmd hcmd
      split at h
      · simp at h
      · rename_i hperm
        have hperm' : (cmd.sudoOnly && !isSudo cfg (senderOf msg)) = false := by
          simpa using hperm
        unfold callStart at h
        by_cases hst : cmd.hasStart = true
        · simp only [hst, if_true] at h
          split at h <;> simp at h <;>
            (obtain ⟨h1, h2, h3⟩ := h; subst h1; subst h2; subst h3;
             exact ⟨hcmd, rfl, rfl, hperm'⟩)
        · simp only [hst] at h
          simp at h

theorem handleCommand_rateLimited (toLowerCase : Str → Str) (cfg : Config) (reg : Registry)
    (run : Handler) (now : Int) (cooldowns : JsMap Int) (msg : Msg) (o : Opts)
    (hs : isSudo cfg (senderOf msg) = false)
    (hlt : now - (cooldowns.get (senderOf msg)).getD 0 < 2000) :
    handleCommand toLowerCase cfg reg run now cooldowns msg o =
      ⟨cooldowns, [], Exit.rateLimited⟩ := by
  unfold handleCommand
  simp [hs, hlt]

theorem handleCommand_cooldowns (toLowerCase : Str → Str) (cfg : Config) (reg : Registry)
    (run : Handler) (now : Int) (cooldowns : JsMap Int) (msg : Msg) (o : Opts) :
    (handleCommand toLowerCase cfg reg run now cooldowns msg o).cooldowns =
      if isSudo cfg (senderOf msg) = true ∨
          now - (cooldowns.get (senderOf msg)).getD 0 < 2000 then cooldowns
      else cooldowns.set (senderOf msg) now := by
  unfold handleCommand
  by_cases hs : isSudo cfg (senderOf msg) = true
  · simp only [hs, Bool.not_true, Bool.false_and, if_true, true_or]
    split
    · simp
    · split
      · rfl
      · split
        · rfl
        · generalize callStart _ _ _ _ _ = r
          rcases r with ⟨eff, _ | _⟩ <;> rfl
  · by_cases hlt : now - (cooldowns.get (senderOf msg)).getD 0 < 2000
    · simp [hs, hlt]
    · simp only [hs, hlt, or_self, if_false]
      simp only [Bool.not_eq_true] at hs
      simp only [hs, Bool.not_false, Bool.true_and, decide_eq_true_eq, hlt, if_false]
      split
      · rfl
      · split
        · rfl
        · generalize callStart _ _ _ _ _ = r
          rcases r with ⟨eff, _ | _⟩ <;> rfl

theorem handleCommand_exit_rateLimited (toLowerCase : Str → Str) (cfg : Config)
    (reg : Registry) (run : Handler) (now : Int) (cooldowns : JsMap Int) (msg : Msg)
    (o : Opts)
    (h : (handleCommand toLowerCase cfg reg run now cooldowns msg o).exit =
      Exit.rateLimited) :
    isSudo cfg (senderOf msg) = false ∧
      now - (cooldowns.get (senderOf msg)).getD 0 < 2000 := by
  unfold handleCommand at h
  simp only at h
  split at h
  · rename_i hc
    simpa using hc
  · split at h
    · simp at h
    · split at h
      · simp at h
      · split at h <;> simp at h

theorem handleCommand_startCount_le (toLowerCase : Str → Str) (cfg : Config)
    (reg : Registry) (run : Handler) (now : Int) (cooldowns : JsMap Int) (msg : Msg)
    (o : Opts) :
    startCount (handleCommand toLowerCase cfg reg run now cooldowns msg o).effects ≤ 1 := by
  unfold handleCommand
  simp only
  split
  · simp [startCount]
  · split
    · simp [startCount]
    · split
      · simp [startCount]
      · rename_i cmd _ _
        unfold callStart
        by_cases hst : cmd.hasStart = true
        · simp only [hst, if_true]
          split <;> simp [startCount]
        · simp only [hst]
          simp [startCount]

/-- A call that ends neither at the cooldown return nor at the permission return starts
the handler registered under the resolved name, once, with `command` set to that name. -/
theorem handleCommand_started (toLowerCase : Str → Str) (cfg : Config) (reg : Registry)
    (run : Handler) (now : Int) (cooldowns : JsMap Int) (msg : Msg) (o : Opts)
    (cmd : Plugin)
    (hcmd : reg.commands.get (resolveName toLowerCase reg o.command) = some cmd)
    (hst : cmd.hasStart = true)
    (h1 : (handleCommand toLowerCase cfg reg run now cooldowns msg o).exit ≠
      Exit.rateLimited)
    (h2 : (handleCommand toLowerCase cfg reg run now cooldowns msg o).exit ≠
      Exit.forbidden) :
    Effect.start cmd msg ⟨o.pfx, o.args, resolveName toLowerCase reg o.command,
        some (isSudo cfg (senderOf msg)),
        some (Js.endsWith msg.key.remoteJid "@g.us".toList)⟩ ∈
      (handleCommand toLowerCase cfg reg run now cooldowns msg o).effects ∧
    startCount (handleCommand toLowerCase cfg reg run now cooldowns msg o).effects = 1 := by
  unfold handleCommand at h1 h2 ⊢
  simp only at h1 h2 ⊢
  split
  · rename_i hc
    simp [hc] at h1
  · rename_i hc
    simp only [hc, hcmd] at h2 ⊢
    split
    · rename_i hp
      simp [hp] at h2
    · unfold callStart
      simp only [hst, if_true]
      split <;> simp [startCount]

/-! ### The registry built by the load loop -/

theorem setAliases_get (toLowerCase : Str → Str) (name : Str) (as : List Str)
    (aliases : JsMap Str) (a n : Str)
    (h : (setAliases toLowerCase name aliases as).get a = some n) :
    n = name ∨ aliases.get a = some n := by
  induction as generalizing aliases with
  | nil => exact Or.inr h
  | cons x rest ih =>
    rcases ih _ h with h1 | h1
    · exact Or.inl h1
    · by_cases hx : toLowerCase x = a
      · subst hx
        rw [JsMap.get_set_self] at h1
        exact Or.inl (Option.some.inj h1).symm
      · rw [JsMap.get_set_ne _ _ _ _ hx] at h1
        exact Or.inr h1

theorem loadFile_wellFormed (toLowerCase : Str → Str) (announce : Bool) (reg : Registry)
    (f : PluginFile) (h : reg.WellFormed) :
    (loadFile toLowerCase announce reg f).1.WellFormed := by
  unfold loadFile
  split
  · exact h
  · rename_i plugin _
    split
    · exact h
    · exact h
    · rename_i c cs _
      by_cases hst : plugin.hasStart = true
      · simp only [hst, Bool.not_true, Bool.false_eq_true, if_false]
        have hget : ∀ k p, (reg.commands.set (toLowerCase (c :: cs)) plugin).get k = some p →
            p.hasStart = true := by
          intro k p hk
          by_cases hkn : toLowerCase (c :: cs) = k
          · subst hkn
            rw [JsMap.get_set_self] at hk
            cases hk
            exact hst
          · rw [JsMap.get_set_ne _ _ _ _ hkn] at hk
            exact h.1 k p hk
        have hex : ∀ n, (n = toLowerCase (c :: cs) ∨ ∃ p, reg.commands.get n = some p) →
            ∃ p, (reg.commands.set (toLowerCase (c :: cs)) plugin).get n = some p := by
          intro n hn
          by_cases hkn : toLowerCase (c :: cs) = n
          · subst hkn
            exact ⟨plugin, JsMap.get_set_self _ _ _⟩
          · rw [JsMap.get_set_ne _ _ _ _ hkn]
            rcases hn with hn | hn
            · exact absurd hn.symm hkn
            · exact hn
        refine ⟨hget, ?_⟩
        intro a n han
        apply hex
        cases hal : plugin.aliases with
        | none =>
          rw [hal] at han
          exact Or.inr (h.2 a n han)
        | some as =>
          rw [hal] at han
          rcases setAliases_get toLowerCase _ as reg.aliases a n han with h1 | h1
          · exact Or.inl h1
          · exact Or.inr (h.2 a n h1)
      · simp only [hst, Bool.not_eq_true] at hst ⊢
        simp only [hst, Bool.not_false, if_true]
        exact h

theorem loadFiles_wellFormed (toLowerCase : Str → Str) (announce : Bool)
    (files : List PluginFile) (reg : Registry) (h : reg.WellFormed) :
    (loadFiles toLowerCase announce reg files).1.WellFormed := by
  induction files generalizing reg with
  | nil => exact h
  | cons f fs ih => exact ih _ (loadFile_wellFormed toLowerCase announce reg f h)

theorem loadCommands_wellFormed (toLowerCase : Str → Str) (dir : List PluginFile) :
    (loadCommands toLowerCase dir).1.WellFormed := by
  apply loadFiles_wellFormed
  constructor
  · intro k p hk
    simp [JsMap.get] at hk
  · intro a n ha
    simp [JsMap.get] at ha

/-! ### Claims on `handleCommand` -/

/-- C3: for a sender who is not elevated, `handleCommand` starts the handler of no plugin
that has `sudoOnly` set, whatever the cooldown map (and the clock, the registry and the
command word) may be. -/
theorem sudoOnly_handler_not_started (toLowerCase : Str → Str) (cfg : Config)
    (reg : Registry) (run : Handler) (now : Int) (cooldowns : JsMap Int) (msg : Msg)
    (o : Opts) (hs : isSudo cfg (senderOf msg) = false)
    (p : Plugin) (hp : p.sudoOnly = true) (m : Msg) (a : StartArgs) :
    Effect.start p m a ∉
      (handleCommand toLowerCase cfg reg run now cooldowns msg o).effects := by
  intro h
  have h4 := (handleCommand_start_mem toLowerCase cfg reg run now cooldowns msg o p m a h).2.2.2
  simp [hs, hp] at h4

/-- Witness of C3: `shutdown` asked for by a stranger, with an empty cooldown map. -/
theorem sudoOnly_handler_not_started_witness :
    Effect.start Example.shutdown (Example.textFrom ".shutdown".toList)
        ⟨".".toList, [], "shutdown".toList, some false, some false⟩ ∉
      (handleCommand Js.asciiLower Example.cfg Example.reg Example.runOk 1700000000000 []
        (Example.textFrom ".shutdown".toList) ⟨".".toList, [], "shutdown".toList⟩).effects :=
  sudoOnly_handler_not_started Js.asciiLower Example.cfg Example.reg Example.runOk
    1700000000000 [] (Example.textFrom ".shutdown".toList)
    ⟨".".toList, [], "shutdown".toList⟩ (by decide) Example.shutdown (by decide)
    (Example.textFrom ".shutdown".toList)
    ⟨".".toList, [], "shutdown".toList, some false, some false⟩

/-- C4 as stated fails: the sender was served at time T = 1700000000000, is turned away
at T + 1500 and calls again at T + 2500. The calls at T + 1500 and T + 2500 are less than
2000 ms apart, and the second of them is not rate-limited: it starts the handler. -/
theorem second_call_within_window_served :
    isSudo Example.cfg Example.stranger = false ∧
    Example.reg.commands.get "ping".toList = some Example.ping ∧
    (1700000002500 : Int) - 1700000001500 < 2000 ∧
    (handleCommand Js.asciiLower Example.cfg Example.reg Example.runOk 1700000001500
      [(Example.stranger, 1700000000000)] (Example.textFrom ".ping".toList)
      ⟨".".toList, [], "ping".toList⟩) =
        ⟨[(Example.stranger, 1700000000000)], [], Exit.rateLimited⟩ ∧
    (handleCommand Js.asciiLower Example.cfg Example.reg Example.runOk 1700000002500
      [(Example.stranger, 1700000000000)] (Example.textFrom ".ping".toList)
      ⟨".".toList, [], "ping".toList⟩).exit = Exit.done ∧
    startCount (handleCommand Js.asciiLower Example.cfg Example.reg Example.runOk
      1700000002500 [(Example.stranger, 1700000000000)] (Example.textFrom ".ping".toList)
      ⟨".".toList, [], "ping".toList⟩).effects = 1 := by
  refine ⟨by decide, by decide, by decide, by decide, by decide, by decide⟩

/-- C4, amended: two calls of `handleCommand` by the same sender, who is not elevated,
less than 2000 ms apart. If the first call got past the cooldown check, the second is
rate-limited silently: it has no effect at all and leaves the cooldown map as the first
call left it. In every case the handler is started at most once across the two calls. -/
theorem second_call_rate_limited (toLowerCase : Str → Str) (cfg : Config) (reg : Registry)
    (run1 run2 : Handler) (now1 now2 : Int) (cooldowns : JsMap Int) (msg1 msg2 : Msg)
    (o1 o2 : Opts) (hs : isSudo cfg (senderOf msg1) = false)
    (hsame : senderOf msg2 = senderOf msg1) (hlt : now2 - now1 < 2000) :
    ((handleCommand toLowerCase cfg reg run1 now1 cooldowns msg1 o1).exit ≠
        Exit.rateLimited →
      handleCommand toLowerCase cfg reg run2 now2
          (handleCommand toLowerCase cfg reg run1 now1 cooldowns msg1 o1).cooldowns msg2 o2 =
        ⟨(handleCommand toLowerCase cfg reg run1 now1 cooldowns msg1 o1).cooldowns, [],
          Exit.rateLimited⟩) ∧
    startCount (handleCommand toLowerCase cfg reg run1 now1 cooldowns msg1 o1).effects +
      startCount (handleCommand toLowerCase cfg reg run2 now2
        (handleCommand toLowerCase cfg reg run1 now1 cooldowns msg1 o1).cooldowns
        msg2 o2).effects ≤ 1 := by
  have hs2 : isSudo cfg (senderOf msg2) = false := by rw [hsame]; exact hs
  by_cases hfirst : now1 - (cooldowns.get (senderOf msg1)).getD 0 < 2000
  · have h1 := handleCommand_rateLimited toLowerCase cfg reg run1 now1 cooldowns msg1 o1
      hs hfirst
    constructor
    · intro hne
      rw [h1] at hne
      exact absurd rfl hne
    · rw [h1]
      have := handleCommand_startCount_le toLowerCase cfg reg run2 now2 cooldowns msg2 o2
      simpa [startCount] using this
  · have hcd := handleCommand_cooldowns toLowerCase cfg reg run1 now1 cooldowns msg1 o1
    simp only [hs, Bool.false_eq_true, hfirst, or_self, if_false] at hcd
    have hget : ((handleCommand toLowerCase cfg reg run1 now1 cooldowns msg1
        o1).cooldowns.get (senderOf msg2)).getD 0 = now1 := by
      rw [hcd, hsame, JsMap.get_set_self]
      rfl
    have h2 := handleCommand_rateLimited toLowerCase cfg reg run2 now2
      (handleCommand toLowerCase cfg reg run1 now1 cooldowns msg1 o1).cooldowns msg2 o2 hs2
      (by rw [hget]; exact hlt)
    constructor
    · intro _
      exact h2
    · rw [h2]
      have := handleCommand_startCount_le toLowerCase cfg reg run1 now1 cooldowns msg1 o1
      simpa [startCount] using this

/-- Witness of C4 amended: first call at 1700000000000 with an empty cooldown map, second
call 500 ms later. -/
theorem second_call_rate_limited_witness :
    ((handleCommand Js.asciiLower Example.cfg Example.reg Example.runOk 1700000000000 []
        (Example.textFrom ".ping".toList) ⟨".".toList, [], "ping".toList⟩).exit ≠
        Exit.rateLimited →
      handleCommand Js.asciiLower Example.cfg Example.reg Example.runOk 1700000000500
          (handleCommand Js.asciiLower Example.cfg Example.reg Example.runOk 1700000000000 []
            (Example.textFrom ".ping".toList) ⟨".".toList, [], "ping".toList⟩).cooldowns
          (Example.textFrom ".ping".toList) ⟨".".toList, [], "ping".toList⟩ =
        ⟨(handleCommand Js.asciiLower Example.cfg Example.reg Example.runOk 1700000000000 []
            (Example.textFrom ".ping".toList) ⟨".".toList, [], "ping".toList⟩).cooldowns, [],
          Exit.rateLimited⟩) ∧
    startCount (handleCommand Js.asciiLower Example.cfg Example.reg Example.runOk
        1700000000000 [] (Example.textFrom ".ping".toList)
        ⟨".".toList, [], "ping".toList⟩).effects +
      startCount (handleCommand Js.asciiLower Example.cfg Example.reg Example.runOk
        1700000000500
        (handleCommand Js.asciiLower Example.cfg Example.reg Example.runOk 1700000000000 []
          (Example.textFrom ".ping".toList) ⟨".".toList, [], "ping".toList⟩).cooldowns
        (Example.textFrom ".ping".toList) ⟨".".toList, [], "ping".toList⟩).effects ≤ 1 :=
  second_call_rate_limited Js.asciiLower Example.cfg Example.reg Example.runOk Example.runOk
    1700000000000 1700000000500 [] (Example.textFrom ".ping".toList)
    (Example.textFrom ".ping".toList) ⟨".".toList, [], "ping".toList⟩
    ⟨".".toList, [], "ping".toList⟩ (by decide) rfl (by decide)

/-- C5: a sequence of calls of `handleCommand`, each by an elevated sender and for a
command word that resolves to a registered command of the loaded registry. Whatever the
clock readings and the cooldown map, every call starts a handler (as many handlers are
started as there are calls) and the cooldown map is left as it was. This holds whether
the handlers fail or not. -/
theorem elevated_sender_never_cooled_down (toLowerCase : Str → Str) (cfg : Config)
    (dir : List PluginFile) (cooldowns : JsMap Int) (calls : List Call)
    (h : ∀ c ∈ calls, isSudo cfg (senderOf c.msg) = true ∧
      (loadCommands toLowerCase dir).1.commands.has
        (resolveName toLowerCase (loadCommands toLowerCase dir).1 c.opts.command) = true) :
    (handleCommands toLowerCase cfg (loadCommands toLowerCase dir).1 cooldowns calls).1 =
      cooldowns ∧
    startCount
        (handleCommands toLowerCase cfg (loadCommands toLowerCase dir).1 cooldowns calls).2 =
      calls.length := by
  induction calls generalizing cooldowns with
  | nil => exact ⟨rfl, rfl⟩
  | cons c cs ih =>
    obtain ⟨hs, hreg⟩ := h c (List.mem_cons_self _ _)
    have hrest := fun cd => ih cd (fun c' hc' => h c' (List.mem_cons_of_mem _ hc'))
    obtain ⟨cmd, hcmd⟩ := Option.isSome_iff_exists.mp hreg
    have hst := (loadCommands_wellFormed toLowerCase dir).1 _ _ hcmd
    have hcd := handleCommand_cooldowns toLowerCase cfg (loadCommands toLowerCase dir).1
      c.run c.now cooldowns c.msg c.opts
    simp only [hs, true_or, if_true] at hcd
    have hstart := handleCommand_started toLowerCase cfg (loadCommands toLowerCase dir).1
      c.run c.now cooldowns c.msg c.opts cmd hcmd hst
      (fun hex => by
        have := (handleCommand_exit_rateLimited _ _ _ _ _ _ _ _ hex).1
        rw [hs] at this
        exact Bool.noConfusion this)
      (fun hex => by
        unfold handleCommand at hex
        simp [hs, hcmd] at hex
        generalize callStart _ _ _ _ _ = r at hex
        rcases r with ⟨eff, _ | _⟩ <;> simp at hex)
    simp only [handleCommands, hcd, startCount_append, hstart.2, (hrest cooldowns).1,
      (hrest cooldowns).2, List.length_cons]
    exact ⟨trivial, by omega⟩

/-- Witness of C5: the elevated sender calls `ping` three times within one second, the
second time with a handler that fails. -/
theorem elevated_sender_never_cooled_down_witness :
    (handleCommands Js.asciiLower Example.cfg (loadCommands Js.asciiLower Example.dir).1
        [(Example.stranger, 5)]
        [⟨Example.runOk, 1700000000000, Example.textFromOwner ".ping".toList,
            ⟨".".toList, [], "ping".toList⟩⟩,
          ⟨Example.runThrow "boom".toList, 1700000000300,
            Example.textFromOwner ".p".toList, ⟨".".toList, [], "p".toList⟩⟩,
          ⟨Example.runOk, 1700000000600, Example.textFromOwner ".PING".toList,
            ⟨".".toList, [], "PING".toList⟩⟩]).1 = [(Example.stranger, 5)] ∧
    startCount
        (handleCommands Js.asciiLower Example.cfg (loadCommands Js.asciiLower Example.dir).1
          [(Example.stranger, 5)]
          [⟨Example.runOk, 1700000000000, Example.textFromOwner ".ping".toList,
              ⟨".".toList, [], "ping".toList⟩⟩,
            ⟨Example.runThrow "boom".toList, 1700000000300,
              Example.textFromOwner ".p".toList, ⟨".".toList, [], "p".toList⟩⟩,
            ⟨Example.runOk, 1700000000600, Example.textFromOwner ".PING".toList,
              ⟨".".toList, [], "PING".toList⟩⟩]).2 =
      [(⟨Example.runOk, 1700000000000, Example.textFromOwner ".ping".toList,
            ⟨".".toList, [], "ping".toList⟩⟩ : Call),
          ⟨Example.runThrow "boom".toList, 1700000000300,
            Example.textFromOwner ".p".toList, ⟨".".toList, [], "p".toList⟩⟩,
          ⟨Example.runOk, 1700000000600, Example.textFromOwner ".PING".toList,
            ⟨".".toList, [], "PING".toList⟩⟩].length :=
  elevated_sender_never_cooled_down Js.asciiLower Example.cfg Example.dir
    [(Example.stranger, 5)] _
    (by
      intro c hc
      simp only [List.mem_cons, List.mem_singleton, List.not_mem_nil, or_false] at hc
      rcases hc with rfl | rfl | rfl <;> exact ⟨by decide, by decide⟩)

/-- C6: in the registry built by the load loop, let the alias map send the (lower-cased)
command word to the name `n`. Then a plugin is registered under `n`; every handler the
call of `handleCommand` starts is that plugin's, with `command = n` in its arguments; and
unless the call stops at the cooldown check or at the permission check, that handler is
started, exactly once. -/
theorem alias_dispatches_to_canonical (toLowerCase : Str → Str) (cfg : Config)
    (dir : List PluginFile) (run : Handler) (now : Int) (cooldowns : JsMap Int) (msg : Msg)
    (o : Opts) (n : Str)
    (halias : (loadCommands toLowerCase dir).1.aliases.get (toLowerCase o.command) = some n) :
    ∃ plugin, (loadCommands toLowerCase dir).1.commands.get n = some plugin ∧
      (∀ p m a, Effect.start p m a ∈
          (handleCommand toLowerCase cfg (loadCommands toLowerCase dir).1 run now cooldowns
            msg o).effects → p = plugin ∧ a.command = n) ∧
      ((handleCommand toLowerCase cfg (loadCommands toLowerCase dir).1 run now cooldowns
            msg o).exit ≠ Exit.rateLimited →
        (handleCommand toLowerCase cfg (loadCommands toLowerCase dir).1 run now cooldowns
            msg o).exit ≠ Exit.forbidden →
        Effect.start plugin msg ⟨o.pfx, o.args, n, some (isSudo cfg (senderOf msg)),
            some (Js.endsWith msg.key.remoteJid "@g.us".toList)⟩ ∈
          (handleCommand toLowerCase cfg (loadCommands toLowerCase dir).1 run now cooldowns
            msg o).effects ∧
        startCount (handleCommand toLowerCase cfg (loadCommands toLowerCase dir).1 run now
            cooldowns msg o).effects = 1) := by
  have hwf := loadCommands_wellFormed toLowerCase dir
  obtain ⟨plugin, hplugin⟩ := hwf.2 _ _ halias
  have hres : resolveName toLowerCase (loadCommands toLowerCase dir).1 o.command = n := by
    simp only [resolveName, halias]
  refine ⟨plugin, hplugin, ?_, ?_⟩
  · intro p m a hmem
    obtain ⟨h1, _, h3, _⟩ := handleCommand_start_mem toLowerCase cfg _ run now cooldowns
      msg o p m a hmem
    rw [hres, hplugin] at h1
    rw [hres] at h3
    exact ⟨(Option.some.inj h1).symm, by rw [h3]⟩
  · intro hx1 hx2
    have := handleCommand_started toLowerCase cfg _ run now cooldowns msg o plugin
      (by rw [hres]; exact hplugin) (hwf.1 _ _ hplugin) hx1 hx2
    rw [hres] at this
    exact this

/-- Witness of C6: the alias map built from the directory sends `p` to `ping`; the call
with the command word `p` starts the `ping` handler with `command = "ping"`. -/
theorem alias_dispatches_to_canonical_witness :
    (handleCommand Js.asciiLower Example.cfg (loadCommands Js.asciiLower Example.dir).1
        Example.runOk 1700000000000 [] (Example.textFrom ".p".toList)
        ⟨".".toList, [], "p".toList⟩).effects =
      [Effect.start Example.ping (Example.textFrom ".p".toList)
          ⟨".".toList, [], "ping".toList, some false, some false⟩,
        Effect.consoleLog "[CMD] 15550001111 used: ping ".toList] ∧
    ∃ plugin, (loadCommands Js.asciiLower Example.dir).1.commands.get "ping".toList =
        some plugin ∧
      (∀ p m a, Effect.start p m a ∈
          (handleCommand Js.asciiLower Example.cfg (loadCommands Js.asciiLower Example.dir).1
            Example.runOk 1700000000000 [] (Example.textFrom ".p".toList)
            ⟨".".toList, [], "p".toList⟩).effects → p = plugin ∧ a.command = "ping".toList) ∧
      ((handleCommand Js.asciiLower Example.cfg (loadCommands Js.asciiLower Example.dir).1
            Example.runOk 1700000000000 [] (Example.textFrom ".p".toList)
            ⟨".".toList, [], "p".toList⟩).exit ≠ Exit.rateLimited →
        (handleCommand Js.asciiLower Example.cfg (loadCommands Js.asciiLower Example.dir).1
            Example.runOk 1700000000000 [] (Example.textFrom ".p".toList)
            ⟨".".toList, [], "p".toList⟩).exit ≠ Exit.forbidden →
        Effect.start plugin (Example.textFrom ".p".toList)
            ⟨".".toList, [], "ping".toList,
              some (isSudo Example.cfg (senderOf (Example.textFrom ".p".toList))),
              some (Js.endsWith (Example.textFrom ".p".toList).key.remoteJid
                "@g.us".toList)⟩ ∈
          (handleCommand Js.asciiLower Example.cfg (loadCommands Js.asciiLower Example.dir).1
            Example.runOk 1700000000000 [] (Example.textFrom ".p".toList)
            ⟨".".toList, [], "p".toList⟩).effects ∧
        startCount (handleCommand Js.asciiLower Example.cfg
            (loadCommands Js.asciiLower Example.dir).1 Example.runOk 1700000000000 []
            (Example.textFrom ".p".toList) ⟨".".toList, [], "p".toList⟩).effects = 1) :=
  ⟨by decide,
    alias_dispatches_to_canonical Js.asciiLower Example.cfg Example.dir Example.runOk
      1700000000000 [] (Example.textFrom ".p".toList) ⟨".".toList, [], "p".toList⟩
      "ping".toList (by decide)⟩

/-- C8: let the command word resolve to the plugin `cmd`, and let its handler throw an
error with message `e1` in one run and with message `e2` in another. Then the two calls of
`handleCommand` hand the same messages to `sendMessage`. When the handler was reached,
the one text sent is the fixed notice; the error message goes to the console only. -/
theorem error_notice_independent_of_error (toLowerCase : Str → Str) (cfg : Config)
    (reg : Registry) (run1 run2 : Handler) (now : Int) (cooldowns : JsMap Int) (msg : Msg)
    (o : Opts) (cmd : Plugin) (e1 e2 : Str)
    (hcmd : reg.commands.get (resolveName toLowerCase reg o.command) = some cmd)
    (h1 : ∀ a, run1 cmd msg a = Except.error e1)
    (h2 : ∀ a, run2 cmd msg a = Except.error e2) :
    sent (handleCommand toLowerCase cfg reg run1 now cooldowns msg o).effects =
      sent (handleCommand toLowerCase cfg reg run2 now cooldowns msg o).effects ∧
    ((handleCommand toLowerCase cfg reg run1 now cooldowns msg o).exit = Exit.failed →
      sent (handleCommand toLowerCase cfg reg run1 now cooldowns msg o).effects =
        [(msg.key.remoteJid, "_Error executing command. Contact owner._".toList)]) := by
  unfold handleCommand
  simp only [hcmd]
  split
  · simp
  · split
    · simp
    · unfold callStart
      by_cases hst : cmd.hasStart = true
      · simp [hst, h1, h2, sent]
      · simp [hst, sent]

/-- Witness of C8: the `ping` handler throws "ENOENT: /srv/bot/secret.key" in one run and
"timeout" in the other. -/
theorem error_notice_independent_of_error_witness :
    sent (handleCommand Js.asciiLower Example.cfg Example.reg
        (Example.runThrow "ENOENT: /srv/bot/secret.key".toList) 1700000000000 []
        (Example.textFrom ".ping".toList) ⟨".".toList, [], "ping".toList⟩).effects =
      sent (handleCommand Js.asciiLower Example.cfg Example.reg
        (Example.runThrow "timeout".toList) 1700000000000 []
        (Example.textFrom ".ping".toList) ⟨".".toList, [], "ping".toList⟩).effects ∧
    ((handleCommand Js.asciiLower Example.cfg Example.reg
        (Example.runThrow "ENOENT: /srv/bot/secret.key".toList) 1700000000000 []
        (Example.textFrom ".ping".toList) ⟨".".toList, [], "ping".toList⟩).exit =
        Exit.failed →
      sent (handleCommand Js.asciiLower Example.cfg Example.reg
        (Example.runThrow "ENOENT: /srv/bot/secret.key".toList) 1700000000000 []
        (Example.textFrom ".ping".toList) ⟨".".toList, [], "ping".toList⟩).effects =
        [((Example.textFrom ".ping".toList).key.remoteJid,
          "_Error executing command. Contact owner._".toList)]) :=
  error_notice_independent_of_error Js.asciiLower Example.cfg Example.reg
    (Example.runThrow "ENOENT: /srv/bot/secret.key".toList)
    (Example.runThrow "timeout".toList) 1700000000000 []
    (Example.textFrom ".ping".toList) ⟨".".toList, [], "ping".toList⟩ Example.ping
    "ENOENT: /srv/bot/secret.key".toList "timeout".toList (by decide)
    (fun _ => rfl) (fun _ => rfl)

/-! ### Parsing of the command word -/

theorem Js.dropWhile_of_all_false (s : Str) (h : ∀ c ∈ s, Js.isWhiteSpace c = false) :
    s.dropWhile Js.isWhiteSpace = s := by
  cases s with
  | nil => rfl
  | cons c cs => simp [List.dropWhile, h c (List.mem_cons_self _ _)]

theorem Js.trim_of_no_whiteSpace (s : Str) (h : ∀ c ∈ s, Js.isWhiteSpace c = false) :
    Js.trim s = s := by
  unfold Js.trim Js.trimEnd Js.trimStart
  rw [Js.dropWhile_of_all_false s h,
    Js.dropWhile_of_all_false s.reverse (fun c hc => h c (List.mem_reverse.mp hc)),
    List.reverse_reverse]

theorem Js.split_of_not_mem (sep : Char) (s : Str) (h : sep ∉ s) : Js.split sep s = [s] := by
  induction s with
  | nil => rfl
  | cons c cs ih =>
    have hc : ¬ c = sep := fun hcs => h (hcs ▸ List.mem_cons_self _ _)
    have hcs : sep ∉ cs := fun hm => h (List.mem_cons_of_mem _ hm)
    simp [Js.split, hc, ih hcs]

/-- C7: with the prefix pattern `.` (the regular expression `/^./i`), a text made of the
character `.` followed by a word `w` without white space is addressed to the bot, its
command word is `toLowerCase(w)` and its argument list is empty; the handler hands exactly
these to the plugin loop. -/
theorem dot_prefix_single_word (toLowerCase : Str → Str) (w : Str)
    (hw : ∀ c ∈ w, Js.isWhiteSpace c = false) :
    Js.test Js.caretDot ('.' :: w) = true ∧
    parseCommand toLowerCase Js.caretDot ('.' :: w) = (toLowerCase w, []) ∧
    ∀ (label : Str) (cfg : Config) (userId : Str) (dir : List PluginFile) (run : Handler)
      (key : MsgKey) (ext : Option Str), key.fromMe = false →
      handleMessage label toLowerCase Js.caretDot cfg userId dir run
          ⟨key, some ⟨some ('.' :: w), ext⟩⟩ =
        pluginLoop label cfg run ⟨key, some ⟨some ('.' :: w), ext⟩⟩ (toLowerCase w) []
          (commandFiles dir) := by
  have hsp : ' ' ∉ w := fun hm => by
    have := hw ' ' hm
    revert this
    decide
  have htest : Js.test Js.caretDot ('.' :: w) = true := by
    have hdot : Js.isLineTerminator '.' = false := by decide
    simp [Js.test, Js.caretDot, hdot]
  have hrep : Js.replaceEmpty Js.caretDot ('.' :: w) = w := by
    have hdot : Js.isLineTerminator '.' = false := by decide
    simp [Js.replaceEmpty, Js.caretDot, hdot]
  have hparse : parseCommand toLowerCase Js.caretDot ('.' :: w) = (toLowerCase w, []) := by
    simp only [parseCommand, htest, if_true, hrep, Js.trim_of_no_whiteSpace w hw,
      Js.split_of_not_mem ' ' w hsp, List.headD_cons, List.drop_succ_cons, List.drop_nil]
  refine ⟨htest, hparse, ?_⟩
  intro label cfg userId dir run key ext hfrom
  have hall : ∀ c ∈ ('.' :: w), Js.isWhiteSpace c = false := by
    intro c hc
    rcases List.mem_cons.mp hc with rfl | hc
    · decide
    · exact hw c hc
  have htext : messageText ⟨some ('.' :: w), ext⟩ = '.' :: w := by
    simp only [messageText, Js.orElse, Option.getD_some, Js.trim_of_no_whiteSpace _ hall]
  simp only [handleMessage, hfrom, htext, htest, hparse]
  simp

/-- Witness of C7: the text `.Ping` gives the command word `ping` and no arguments. -/
theorem dot_prefix_single_word_witness :
    Js.test Js.caretDot ('.' :: "Ping".toList) = true ∧
    parseCommand Js.asciiLower Js.caretDot ('.' :: "Ping".toList) =
      (Js.asciiLower "Ping".toList, []) ∧
    ∀ (label : Str) (cfg : Config) (userId : Str) (dir : List PluginFile) (run : Handler)
      (key : MsgKey) (ext : Option Str), key.fromMe = false →
      handleMessage label Js.asciiLower Js.caretDot cfg userId dir run
          ⟨key, some ⟨some ('.' :: "Ping".toList), ext⟩⟩ =
        pluginLoop label cfg run ⟨key, some ⟨some ('.' :: "Ping".toList), ext⟩⟩
          (Js.asciiLower "Ping".toList) [] (commandFiles dir) :=
  dot_prefix_single_word Js.asciiLower "Ping".toList (by decide)

/-! ### Group metadata store -/

/-- C9, the code at a failing input: the group is fetched and cached at time 0 (the
participant entry records `cachedAt = 0`, the metadata entry carries no `cachedAt`), and
`getGroupMetadata(group, 300000)` at time 250000 calls the session again although
250000 - 0 < 300000. -/
theorem getGroupMetadata_refreshes_fresh_entry :
    Example.fetchedAt0.groupCache.get Example.group = some Example.metadata ∧
    (Example.fetchedAt0.participantCache.get Example.group).map ParticipantEntry.cachedAt =
      some 0 ∧
    (250000 : Int) - 0 < 300000 ∧
    refreshCalls
        (getGroupMetadata Example.session 250000 Example.fetchedAt0 Example.group
          300000).effects = [Example.group] := by
  refine ⟨by decide, by decide, by decide, by decide⟩

theorem getGroupMetadata_after_clear (session : Session) (now : Int) (st : Store)
    (groupJid : Str) (maxAge : Int) :
    getGroupMetadata session now (clearGroupCache st groupJid).1 groupJid maxAge =
      fetchGroupMetadata session now (clearGroupCache st groupJid).1 groupJid true := by
  unfold getGroupMetadata
  simp only [clearGroupCache, JsMap.get_delete_self, isFresh]
  rfl

/-- C10: for every group id (a JID ending in `@g.us`) and every `maxAge`,
`clearGroupCache(groupId)` followed immediately by `getGroupMetadata(groupId, maxAge)`
calls the session's `groupMetadata` for the group exactly once and returns what that call
reported (`null` when it failed), never an entry of the cache as it was before. -/
theorem get_after_clear_refreshes (session : Session) (now : Int) (st : Store)
    (groupJid : Str) (maxAge : Int) (hg : Js.endsWith groupJid "@g.us".toList = true) :
    refreshCalls
        (getGroupMetadata session now (clearGroupCache st groupJid).1 groupJid
          maxAge).effects = [groupJid] ∧
    (getGroupMetadata session now (clearGroupCache st groupJid).1 groupJid maxAge).result =
      (session groupJid).toOption := by
  rw [getGroupMetadata_after_clear]
  unfold fetchGroupMetadata
  simp only [hg, Bool.not_true, Bool.false_eq_true, if_false, Bool.true_and]
  cases session groupJid <;> simp [refreshCalls, Except.toOption]

/-- Witness of C10: the group cached at time 0 is cleared and read at time 1 with
`maxAge = 300000`, while the session reports a new subject. -/
theorem get_after_clear_refreshes_witness :
    refreshCalls
        (getGroupMetadata Example.sessionRenamed 1
          (clearGroupCache Example.fetchedAt0 Example.group).1 Example.group
          300000).effects = [Example.group] ∧
    (getGroupMetadata Example.sessionRenamed 1
          (clearGroupCache Example.fetchedAt0 Example.group).1 Example.group
          300000).result =
      (Example.sessionRenamed Example.group).toOption :=
  get_after_clear_refreshes Example.sessionRenamed 1 Example.fetchedAt0 Example.group 300000
    (by decide)

/-- C11, the code at a failing input: the group was cached at time 0; at time 400000 a
membership change is reported and the refresh it triggers fails. The listener leaves both
caches exactly as they were, with the entry stored before the event, and the next reads
(`fetchGroupMetadata(group)` and `isGroupAdmin`) are answered from that entry without
asking the session, although the session would by then report a new admin. -/
theorem participants_update_keeps_entry_when_refresh_fails :
    (onParticipantsUpdate Example.sessionDown 400000 Example.fetchedAt0 Example.group).1 =
      Example.fetchedAt0 ∧
    Example.fetchedAt0.groupCache.get Example.group = some Example.metadata ∧
    fetchGroupMetadata Example.sessionPromoted 400001
        (onParticipantsUpdate Example.sessionDown 400000 Example.fetchedAt0 Example.group).1
        Example.group false =
      ⟨Example.fetchedAt0, some Example.metadata, []⟩ ∧
    isGroupAdmin Example.sessionPromoted 400001
        (onParticipantsUpdate Example.sessionDown 400000 Example.fetchedAt0 Example.group).1
        Example.group Example.stranger =
      ⟨Example.fetchedAt0, false, []⟩ := by
  refine ⟨by decide, by decide, by decide, by decide⟩

/-- C12 as stated fails: the participant entry of the group was written at time 0; at time
400000, more than 300000 ms later, the session would report the stranger as an admin, but
`isGroupAdmin` makes no call to the session and answers `false` from the old entry. -/
theorem isGroupAdmin_answers_from_expired_entry :
    (Example.fetchedAt0.participantCache.get Example.group).map ParticipantEntry.cachedAt =
      some 0 ∧
    (400000 : Int) - 0 > 300000 ∧
    (participantEntry Example.metadataPromoted 400000).admins.contains Example.stranger =
      true ∧
    isGroupAdmin Example.sessionPromoted 400000 Example.fetchedAt0 Example.group
        Example.stranger =
      ⟨Example.fetchedAt0, false, []⟩ := by
  refine ⟨by decide, by decide, by decide, by decide⟩

/-- C12, amended: `isGroupAdmin` and `isGroupOwner` read the participant cache without any
maximum age. Whenever it holds an entry for the group, whatever the clock and whatever
the age of the entry, they answer from that entry (membership of `admins`, equality with
a non-empty `owner`), call the session not at all and leave the store as it is. -/
theorem admin_owner_answer_from_entry (session : Session) (now : Int) (st : Store)
    (groupJid userJid : Str) (entry : ParticipantEntry)
    (h : st.participantCache.get groupJid = some entry) :
    isGroupAdmin session now st groupJid userJid =
      ⟨st, entry.admins.contains userJid, []⟩ ∧
    isGroupOwner session now st groupJid userJid =
      ⟨st, decide (entry.owner = some userJid ∧ userJid ≠ []), []⟩ := by
  constructor
  · simp [isGroupAdmin, getGroupParticipants, h]
  · unfold isGroupOwner getGroupParticipants
    simp only [h]
    cases ho : entry.owner with
    | none => simp
    | some owner =>
      cases owner with
      | nil =>
        simp only [Option.some.injEq, ne_eq]
        congr 1
        by_cases hu : userJid = []
        · simp [hu]
        · have : ¬ ([] = userJid) := fun hh => hu hh.symm
          simp [this]
      | cons c cs =>
        simp only [Option.some.injEq, ne_eq]
        congr 1
        by_cases hu : c :: cs = userJid
        · subst hu
          simp
        · simp [hu]

/-- Witness of C12 amended: the entry written at time 0 is read at time 400000. -/
theorem admin_owner_answer_from_entry_witness :
    isGroupAdmin Example.sessionPromoted 400000 Example.fetchedAt0 Example.group
        "919876543210@s.whatsapp.net".toList =
      ⟨Example.fetchedAt0,
        (participantEntry Example.metadata 0).admins.contains
          "919876543210@s.whatsapp.net".toList, []⟩ ∧
    isGroupOwner Example.sessionPromoted 400000 Example.fetchedAt0 Example.group
        "919876543210@s.whatsapp.net".toList =
      ⟨Example.fetchedAt0,
        decide ((participantEntry Example.metadata 0).owner =
            some "919876543210@s.whatsapp.net".toList ∧
          "919876543210@s.whatsapp.net".toList ≠ []), []⟩ :=
  admin_owner_answer_from_entry Example.sessionPromoted 400000 Example.fetchedAt0
    Example.group "919876543210@s.whatsapp.net".toList (participantEntry Example.metadata 0)
    (by decide)

/-- C13 as stated fails: the group is cached, the refresh at time 400000 fails, and
`getGroupMetadata(group, 300000)` returns `null` although the previous snapshot is still
in the cache. -/
theorem getGroupMetadata_null_on_failed_refresh :
    Example.fetchedAt0.groupCache.get Example.group = some Example.metadata ∧
    getGroupMetadata Example.sessionDown 400000 Example.fetchedAt0 Example.group 300000 =
      ⟨Example.fetchedAt0, none,
        [Effect.groupMetadata Example.group,
          Effect.consoleError
            ("[Store] Failed to fetch metadata for ".toList ++ Example.group ++
              ": Connection Closed".toList)]⟩ := by
  refine ⟨by decide, by decide⟩

/-- C13, amended: when `getGroupMetadata` goes to the session for a group id (the cached
entry does not pass the age test) and the session's call fails, the result is `null`,
also when a previous snapshot is in the cache; the session was called once and both
caches are left as they were, so the previous snapshot stays stored. -/
theorem failed_refresh_returns_null (session : Session) (now : Int) (st : Store)
    (groupJid : Str) (maxAge : Int) (e : Str)
    (hg : Js.endsWith groupJid "@g.us".toList = true)
    (hold : isFresh (st.groupCache.get groupJid) now maxAge = false)
    (hfail : session groupJid = Except.error e) :
    (getGroupMetadata session now st groupJid maxAge).result = none ∧
    (getGroupMetadata session now st groupJid maxAge).store = st ∧
    refreshCalls (getGroupMetadata session now st groupJid maxAge).effects = [groupJid] := by
  unfold getGroupMetadata fetchGroupMetadata
  simp only [hold, hg, hfail, Bool.false_eq_true, if_false, Bool.not_true]
  exact ⟨rfl, rfl, rfl⟩

/-- Witness of C13 amended: the cached group at time 400000 with a failing session. -/
theorem failed_refresh_returns_null_witness :
    (getGroupMetadata Example.sessionDown 400000 Example.fetchedAt0 Example.group
        300000).result = none ∧
    (getGroupMetadata Example.sessionDown 400000 Example.fetchedAt0 Example.group
        300000).store = Example.fetchedAt0 ∧
    refreshCalls (getGroupMetadata Example.sessionDown 400000 Example.fetchedAt0
        Example.group 300000).effects = [Example.group] :=
  failed_refresh_returns_null Example.sessionDown 400000 Example.fetchedAt0 Example.group
    300000 "Connection Closed".toList (by decide) (by decide) rfl

/-! ### The restart counter of `launcher.js` -/

theorem startNodeOnExit_within (st : NodeSupervisor) (code : Option Int) (t : Int)
    (hc : code ≠ some 0) (hw : t - st.lastRestartTime ≤ restartWindow) :
    startNodeOnExit st code t =
      if st.nodeRestartCount + 1 > maxNodeRestarts then
        (⟨st.nodeRestartCount + 1, t⟩, [LaunchEffect.logTooFrequent])
      else
        (⟨st.nodeRestartCount + 1, t⟩,
          [LaunchEffect.logRestarting code, LaunchEffect.startNode]) := by
  have hw1 : ¬ (t - st.lastRestartTime > restartWindow) := not_lt.mpr hw
  simp only [startNodeOnExit, hc, if_false, hw1]

theorem startNodeOnExit_after (st : NodeSupervisor) (code : Option Int) (t : Int)
    (hc : code ≠ some 0) (hw : t - st.lastRestartTime > restartWindow) :
    startNodeOnExit st code t =
      (⟨1, t⟩, [LaunchEffect.logRestarting code, LaunchEffect.startNode]) := by
  simp [startNodeOnExit, hc, hw, maxNodeRestarts]

/-- C14: six exits with a non-zero code in a row, each at most `restartWindow` after the
one before (as when all six lie in one window), starting with the counter at 0 as at
launch (or with a first exit that opens a new window). With `maxNodeRestarts = 5` the
first five each call `startNode()`, the sixth calls nothing: the counter stands at 6, no
child is left, and whatever exit events one lists after it, none is handled. -/
theorem six_failures_stop_supervisor (st : NodeSupervisor)
    (c1 c2 c3 c4 c5 c6 : Option Int) (t1 t2 t3 t4 t5 t6 : Int)
    (more : List (Option Int × Int))
    (h1 : c1 ≠ some 0) (h2 : c2 ≠ some 0) (h3 : c3 ≠ some 0) (h4 : c4 ≠ some 0)
    (h5 : c5 ≠ some 0) (h6 : c6 ≠ some 0)
    (h0 : st.nodeRestartCount = 0 ∨ t1 - st.lastRestartTime > restartWindow)
    (w2 : t2 - t1 ≤ restartWindow) (w3 : t3 - t2 ≤ restartWindow)
    (w4 : t4 - t3 ≤ restartWindow) (w5 : t5 - t4 ≤ restartWindow)
    (w6 : t6 - t5 ≤ restartWindow) :
    nodeExits st ([(c1, t1), (c2, t2), (c3, t3), (c4, t4), (c5, t5), (c6, t6)] ++ more) =
      (⟨6, t6⟩,
        [[LaunchEffect.logRestarting c1, LaunchEffect.startNode],
          [LaunchEffect.logRestarting c2, LaunchEffect.startNode],
          [LaunchEffect.logRestarting c3, LaunchEffect.startNode],
          [LaunchEffect.logRestarting c4, LaunchEffect.startNode],
          [LaunchEffect.logRestarting c5, LaunchEffect.startNode],
          [LaunchEffect.logTooFrequent]]) := by
  have e1 : startNodeOnExit st c1 t1 =
      (⟨1, t1⟩, [LaunchEffect.logRestarting c1, LaunchEffect.startNode]) := by
    by_cases hw : t1 - st.lastRestartTime > restartWindow
    · exact startNodeOnExit_after st c1 t1 h1 hw
    · have hz : st.nodeRestartCount = 0 := h0.resolve_right hw
      rw [startNodeOnExit_within st c1 t1 h1 (not_lt.mp hw), hz]
      simp [maxNodeRestarts]
  have step : ∀ (n : Nat) (ta tb : Int) (c : Option Int), c ≠ some 0 →
      tb - ta ≤ restartWindow →
      startNodeOnExit ⟨n, ta⟩ c tb =
        if n + 1 > maxNodeRestarts then (⟨n + 1, tb⟩, [LaunchEffect.logTooFrequent])
        else (⟨n + 1, tb⟩, [LaunchEffect.logRestarting c, LaunchEffect.startNode]) :=
    fun n ta tb c hc hw => startNodeOnExit_within ⟨n, ta⟩ c tb hc hw
  have e2 := step 1 t1 t2 c2 h2 w2
  have e3 := step 2 t2 t3 c3 h3 w3
  have e4 := step 3 t3 t4 c4 h4 w4
  have e5 := step 4 t4 t5 c5 h5 w5
  have e6 := step 5 t5 t6 c6 h6 w6
  simp only [maxNodeRestarts] at e2 e3 e4 e5 e6
  norm_num at e2 e3 e4 e5 e6
  simp [nodeExits, e1, e2, e3, e4, e5, e6]

/-- Witness of C14: six crashes with code 1, one second apart, more than 30 seconds after
launch, followed by a seventh exit event that is never handled. -/
theorem six_failures_stop_supervisor_witness :
    nodeExits ⟨0, 1700000000000⟩
        ([(some 1, 1700000040000), (some 1, 1700000041000), (some 1, 1700000042000),
          (some 1, 1700000043000), (some 1, 1700000044000), (some 1, 1700000045000)] ++
          [(some 1, 1700000046000)]) =
      (⟨6, 1700000045000⟩,
        [[LaunchEffect.logRestarting (some 1), LaunchEffect.startNode],
          [LaunchEffect.logRestarting (some 1), LaunchEffect.startNode],
          [LaunchEffect.logRestarting (some 1), LaunchEffect.startNode],
          [LaunchEffect.logRestarting (some 1), LaunchEffect.startNode],
          [LaunchEffect.logRestarting (some 1), LaunchEffect.startNode],
          [LaunchEffect.logTooFrequent]]) :=
  six_failures_stop_supervisor ⟨0, 1700000000000⟩ (some 1) (some 1) (some 1) (some 1)
    (some 1) (some 1) 1700000040000 1700000041000 1700000042000 1700000043000
    1700000044000 1700000045000 [(some 1, 1700000046000)]
    (by decide) (by decide) (by decide) (by decide) (by decide) (by decide)
    (Or.inl rfl) (by decide) (by decide) (by decide) (by decide) (by decide)

/-- C15: whatever the counter was, an exit with a non-zero code that arrives more than
`restartWindow` (30000 ms) after the last restart leaves the counter at exactly 1, and
the child is started again. -/
theorem failure_after_window_resets_counter (st : NodeSupervisor) (code : Option Int)
    (currentTime : Int) (hc : code ≠ some 0)
    (hw : currentTime - st.lastRestartTime > restartWindow) :
    (startNodeOnExit st code currentTime).1.nodeRestartCount = 1 ∧
    startNodeOnExit st code currentTime =
      (⟨1, currentTime⟩, [LaunchEffect.logRestarting code, LaunchEffect.startNode]) := by
  rw [startNodeOnExit_after st code currentTime hc hw]
  exact ⟨rfl, rfl⟩

/-- Witness of C15: the counter stands at 5 and the next crash comes 30001 ms later. -/
theorem failure_after_window_resets_counter_witness :
    (startNodeOnExit ⟨5, 1700000000000⟩ (some 1) 1700000030001).1.nodeRestartCount = 1 ∧
    startNodeOnExit ⟨5, 1700000000000⟩ (some 1) 1700000030001 =
      (⟨1, 1700000030001⟩, [LaunchEffect.logRestarting (some 1), LaunchEffect.startNode]) :=
  failure_after_window_resets_counter ⟨5, 1700000000000⟩ (some 1) 1700000030001
    (by decide) (by decide)

/-! ### Connection close -/

theorem connectionUpdate_reconnect_mem (legacy : Bool) (loggedOut : Int) (cfg : Config)
    (sessionId alive : Str) (u : ConnectionUpdate)
    (hclose : u.connection = some "close".toList) :
    ConnEffect.reconnect ∈ connectionUpdate legacy loggedOut cfg sessionId alive u ↔
      disconnectStatusCode u ≠ some loggedOut := by
  have hopen : ¬ (some "close".toList = some "open".toList) := by decide
  unfold connectionUpdate
  simp only [hclose, hopen, if_true, if_false, List.append_nil, List.mem_append]
  constructor
  · intro h
    rcases h with h | h
    · split at h <;> simp at h
    · rcases h with h | h
      · simp at h
      · by_cases hs : disconnectStatusCode u ≠ some loggedOut
        · exact hs
        · simp [hs] at h
  · intro hs
    right
    right
    simp [hs]

theorem disconnectStatusCode_eq_some (u : ConnectionUpdate) (code : Int) :
    disconnectStatusCode u = some code ↔
      ∃ d e, u.lastDisconnect = some d ∧ d.error = some e ∧ e.statusCode = some code := by
  unfold disconnectStatusCode
  cases hd : u.lastDisconnect with
  | none => simp
  | some d =>
    cases he : d.error with
    | none => simp [he]
    | some e => simp [he]

/-- C16: on every `connection.update` event with `connection === 'close'`, in
`lib/client.js` and in `lib/legacy_client.js` alike, the client is started again if and
only if the event does not carry the logged-out code, that is unless `lastDisconnect` is
there, has an `error`, and the error's `output.statusCode` is
`DisconnectReason.loggedOut`. So a logged-out close never reconnects, and a close without
error information (no `lastDisconnect`, no `error`, or no status code) does. -/
theorem reconnect_iff_not_logged_out (legacy : Bool) (loggedOut : Int) (cfg : Config)
    (sessionId alive : Str) (u : ConnectionUpdate)
    (hclose : u.connection = some "close".toList) :
    (ConnEffect.reconnect ∈ connectionUpdate legacy loggedOut cfg sessionId alive u ↔
      ¬ ∃ d e, u.lastDisconnect = some d ∧ d.error = some e ∧
        e.statusCode = some loggedOut) ∧
    ((∃ d e, u.lastDisconnect = some d ∧ d.error = some e ∧
        e.statusCode = some loggedOut) →
      ConnEffect.reconnect ∉ connectionUpdate legacy loggedOut cfg sessionId alive u) ∧
    ((u.lastDisconnect = none ∨ u.lastDisconnect = some ⟨none⟩ ∨
        ∃ text, u.lastDisconnect = some ⟨some ⟨text, none⟩⟩) →
      ConnEffect.reconnect ∈ connectionUpdate legacy loggedOut cfg sessionId alive u) := by
  have key : ConnEffect.reconnect ∈ connectionUpdate legacy loggedOut cfg sessionId alive u ↔
      ¬ ∃ d e, u.lastDisconnect = some d ∧ d.error = some e ∧
        e.statusCode = some loggedOut := by
    rw [connectionUpdate_reconnect_mem legacy loggedOut cfg sessionId alive u hclose, ne_eq,
      disconnectStatusCode_eq_some]
  refine ⟨key, ?_, ?_⟩
  · intro h
    rw [key]
    exact fun hn => hn h
  · intro h
    rw [key]
    rintro ⟨d, e, hd, he, hcode⟩
    rcases h with h | h | ⟨text, h⟩
    · rw [h] at hd
      exact Option.noConfusion hd
    · rw [h] at hd
      cases hd
      exact Option.noConfusion he
    · rw [h] at hd
      cases hd
      cases he
      exact Option.noConfusion hcode

/-- Witness of C16: a close with the logged-out code 401 and a close with code 428, on
the main client and on the legacy client; the first logs and stops, the second calls the
client again. -/
theorem reconnect_iff_not_logged_out_witness :
    connectionUpdate false 401 Example.cfg "dexnova-default".toList "alive".toList
        Example.loggedOutEvent =
      [ConnEffect.consoleLog "Connection closed: Error: Connection Failure".toList,
        ConnEffect.consoleLog "Reconnect? No (logged out)".toList,
        ConnEffect.consoleLog
          "[DEX Nova] Logged out. Clear sessions and pair again.".toList] ∧
    connectionUpdate true 401 Example.cfg "dexnova-default".toList "alive".toList
        Example.loggedOutEvent =
      [ConnEffect.consoleLog "[Legacy] Connection closed: Error: Connection Failure".toList,
        ConnEffect.consoleLog "Reconnect? No (logged out)".toList,
        ConnEffect.consoleLog
          "[Legacy] Logged out. Delete legacy session folder to pair again.".toList] ∧
    connectionUpdate false 401 Example.cfg "dexnova-default".toList "alive".toList
        Example.closeEvent =
      [ConnEffect.consoleLog "Connection closed: Error: Connection Closed".toList,
        ConnEffect.consoleLog "Reconnect? Yes".toList, ConnEffect.reconnect] ∧
    connectionUpdate true 401 Example.cfg "dexnova-default".toList "alive".toList
        ⟨some "close".toList, none, none⟩ =
      [ConnEffect.consoleLog "[Legacy] Connection closed: Unknown".toList,
        ConnEffect.consoleLog "Reconnect? Yes".toList, ConnEffect.reconnect] ∧
    ((ConnEffect.reconnect ∈ connectionUpdate false 401 Example.cfg
          "dexnova-default".toList "alive".toList Example.loggedOutEvent ↔
        ¬ ∃ d e, Example.loggedOutEvent.lastDisconnect = some d ∧ d.error = some e ∧
          e.statusCode = some 401) ∧
      ((∃ d e, Example.loggedOutEvent.lastDisconnect = some d ∧ d.error = some e ∧
          e.statusCode = some 401) →
        ConnEffect.reconnect ∉ connectionUpdate false 401 Example.cfg
          "dexnova-default".toList "alive".toList Example.loggedOutEvent) ∧
      ((Example.loggedOutEvent.lastDisconnect = none ∨
          Example.loggedOutEvent.lastDisconnect = some ⟨none⟩ ∨
          ∃ text, Example.loggedOutEvent.lastDisconnect = some ⟨some ⟨text, none⟩⟩) →
        ConnEffect.reconnect ∈ connectionUpdate false 401 Example.cfg
          "dexnova-default".toList "alive".toList Example.loggedOutEvent)) :=
  ⟨by decide, by decide, by decide, by decide,
    reconnect_iff_not_logged_out false 401 Example.cfg "dexnova-default".toList
      "alive".toList Example.loggedOutEvent rfl⟩

/-! ### Reload during a dispatch -/

/-- The two steps run one after the other on an unchanged module state are
`handleCommand`. -/
theorem handleCommand_eq_steps (toLowerCase : Str → Str) (cfg : Config) (reg : Registry)
    (run : Handler) (now : Int) (cooldowns : JsMap Int) (msg : Msg) (o : Opts) :
    handleCommand toLowerCase cfg reg run now cooldowns msg o =
      match resolveStep toLowerCase cfg now ⟨cooldowns, reg⟩ msg o with
      | (m, Sum.inl ex) => ⟨m.cooldowns, [], ex⟩
      | (m, Sum.inr loc) =>
        ⟨(finishStep run m msg o loc).1.cooldowns, (finishStep run m msg o loc).2.1,
          (finishStep run m msg o loc).2.2⟩ := by
  unfold handleCommand resolveStep
  simp only
  split
  · rfl
  · split
    · rfl
    · unfold finishStep
      simp only
      split
      · rfl
      · generalize callStart _ _ _ _ _ = r
        rcases r with ⟨eff, _ | _⟩ <;> rfl

theorem finishStep_frame (run : Handler) (m m' : CmdModule) (msg : Msg) (o : Opts)
    (loc : Resolved) :
    (finishStep run m msg o loc).1 = m ∧
    (finishStep run m msg o loc).2 = (finishStep run m' msg o loc).2 := by
  unfold finishStep
  simp only
  split
  · exact ⟨rfl, rfl⟩
  · generalize callStart _ _ _ _ _ = r
    rcases r with ⟨eff, _ | _⟩ <;> exact ⟨rfl, rfl⟩

theorem finishStep_exit (run : Handler) (m : CmdModule) (msg : Msg) (o : Opts)
    (loc : Resolved) :
    (finishStep run m msg o loc).2.2 ≠ Exit.unknown ∧
    (loc.cmd.hasStart = true → (finishStep run m msg o loc).2.2 ≠ Exit.forbidden →
      Effect.start loc.cmd msg
          ⟨o.pfx, o.args, loc.cmdName, some loc.sudoSender, some loc.isGroup⟩ ∈
        (finishStep run m msg o loc).2.1) := by
  unfold finishStep
  simp only
  split
  · exact ⟨by simp, fun _ h => absurd rfl h⟩
  · unfold callStart
    by_cases hst : loc.cmd.hasStart = true
    · simp only [hst, if_true]
      split <;> simp
    · simp only [hst, if_false]
      simp [hst]

/-- C17: a call of `handleCommand` has resolved its command word to the plugin `A`
(`loc.cmd`, found in the registry of that moment). Then `reloadCommands()` runs and
installs whatever registry the files give now, with or without `A`. The rest of the call,
run on the reloaded module state, does exactly what it does without the reload: it never
ends as `unknown`, and unless the permission check stops it, it starts the handler of `A`
with the resolved name. The reloaded registry itself is left in place. -/
theorem resolved_dispatch_survives_reload (toLowerCase : Str → Str) (cfg : Config)
    (run : Handler) (now : Int) (m m1 : CmdModule) (msg : Msg) (o : Opts) (loc : Resolved)
    (dir' : List PluginFile)
    (hres : resolveStep toLowerCase cfg now m msg o = (m1, Sum.inr loc)) :
    m.registry.commands.get (resolveName toLowerCase m.registry o.command) = some loc.cmd ∧
    (finishStep run (reloadCommands toLowerCase dir' m1).1 msg o loc).1 =
      (reloadCommands toLowerCase dir' m1).1 ∧
    (finishStep run (reloadCommands toLowerCase dir' m1).1 msg o loc).2 =
      ((handleCommand toLowerCase cfg m.registry run now m.cooldowns msg o).effects,
        (handleCommand toLowerCase cfg m.registry run now m.cooldowns msg o).exit) ∧
    (finishStep run (reloadCommands toLowerCase dir' m1).1 msg o loc).2.2 ≠ Exit.unknown ∧
    (loc.cmd.hasStart = true →
      (finishStep run (reloadCommands toLowerCase dir' m1).1 msg o loc).2.2 ≠
        Exit.forbidden →
      Effect.start loc.cmd msg
          ⟨o.pfx, o.args, loc.cmdName, some loc.sudoSender, some loc.isGroup⟩ ∈
        (finishStep run (reloadCommands toLowerCase dir' m1).1 msg o loc).2.1) := by
  have hfound : m.registry.commands.get (resolveName toLowerCase m.registry o.command) =
      some loc.cmd := by
    unfold resolveStep at hres
    simp only at hres
    split at hres
    · simp at hres
    · split at hres
      · simp at hres
      · rename_i cmd hcmd
        simp only [Prod.mk.injEq, Sum.inr.injEq] at hres
        rw [← hres.2]
        exact hcmd
  have hsteps := handleCommand_eq_steps toLowerCase cfg m.registry run now m.cooldowns msg o
  have hm : (⟨m.cooldowns, m.registry⟩ : CmdModule) = m := rfl
  rw [hm, hres] at hsteps
  simp only at hsteps
  have hframe := finishStep_frame run (reloadCommands toLowerCase dir' m1).1 m1 msg o loc
  refine ⟨hfound, hframe.1, ?_, ?_⟩
  · rw [hframe.2, hsteps]
  · exact finishStep_exit run _ msg o loc

/-- Witness of C17: `.ping` is resolved, then the reload finds an empty directory and
installs a registry without `ping`. -/
theorem resolved_dispatch_survives_reload_witness :
    (reloadCommands Js.asciiLower []
        ⟨[(Example.stranger, 1700000000000)], Example.reg⟩).1.registry = ⟨[], []⟩ ∧
    (Example.reg.commands.get (resolveName Js.asciiLower Example.reg "ping".toList) =
        some Example.ping ∧
      (finishStep Example.runOk
          (reloadCommands Js.asciiLower []
            ⟨[(Example.stranger, 1700000000000)], Example.reg⟩).1
          (Example.textFrom ".ping".toList) ⟨".".toList, [], "ping".toList⟩
          ⟨Example.stranger, Example.stranger, false, false, "ping".toList, Example.ping⟩).1 =
        (reloadCommands Js.asciiLower []
          ⟨[(Example.stranger, 1700000000000)], Example.reg⟩).1 ∧
      (finishStep Example.runOk
          (reloadCommands Js.asciiLower []
            ⟨[(Example.stranger, 1700000000000)], Example.reg⟩).1
          (Example.textFrom ".ping".toList) ⟨".".toList, [], "ping".toList⟩
          ⟨Example.stranger, Example.stranger, false, false, "ping".toList, Example.ping⟩).2 =
        ((handleCommand Js.asciiLower Example.cfg Example.reg Example.runOk 1700000000000 []
            (Example.textFrom ".ping".toList) ⟨".".toList, [], "ping".toList⟩).effects,
          (handleCommand Js.asciiLower Example.cfg Example.reg Example.runOk 1700000000000 []
            (Example.textFrom ".ping".toList) ⟨".".toList, [], "ping".toList⟩).exit) ∧
      (finishStep Example.runOk
          (reloadCommands Js.asciiLower []
            ⟨[(Example.stranger, 1700000000000)], Example.reg⟩).1
          (Example.textFrom ".ping".toList) ⟨".".toList, [], "ping".toList⟩
          ⟨Example.stranger, Example.stranger, false, false, "ping".toList,
            Example.ping⟩).2.2 ≠ Exit.unknown ∧
      (Example.ping.hasStart = true →
        (finishStep Example.runOk
          (reloadCommands Js.asciiLower []
            ⟨[(Example.stranger, 1700000000000)], Example.reg⟩).1
          (Example.textFrom ".ping".toList) ⟨".".toList, [], "ping".toList⟩
          ⟨Example.stranger, Example.stranger, false, false, "ping".toList,
            Example.ping⟩).2.2 ≠ Exit.forbidden →
        Effect.start Example.ping (Example.textFrom ".ping".toList)
            ⟨".".toList, [], "ping".toList, some false, some false⟩ ∈
          (finishStep Example.runOk
            (reloadCommands Js.asciiLower []
              ⟨[(Example.stranger, 1700000000000)], Example.reg⟩).1
            (Example.textFrom ".ping".toList) ⟨".".toList, [], "ping".toList⟩
            ⟨Example.stranger, Example.stranger, false, false, "ping".toList,
              Example.ping⟩).2.1)) :=
  ⟨by decide,
    resolved_dispatch_survives_reload Js.asciiLower Example.cfg Example.runOk 1700000000000
      ⟨[], Example.reg⟩ ⟨[(Example.stranger, 1700000000000)], Example.reg⟩
      (Example.textFrom ".ping".toList) ⟨".".toList, [], "ping".toList⟩
      ⟨Example.stranger, Example.stranger, false, false, "ping".toList, Example.ping⟩ []
      (by decide)⟩

/-! ### `numToJid` -/

/-- C18, the code at a failing input: the 10-digit national number 9123456789 given
without country code makes `numToJid` throw, because its own first two digits are taken
for the country code; with the country code in front the same number is accepted. -/
theorem numToJid_rejects_national_number_starting_with_91 :
    ("9123456789".toList.filter Char.isDigit).length = 10 ∧
    numToJid "9123456789".toList = Except.error "Invalid Indian phone number".toList ∧
    numToJid "+91 91234 56789".toList = Except.ok "919123456789@s.whatsapp.net".toList ∧
    numToJid "9876543210".toList = Except.ok "919876543210@s.whatsapp.net".toList := by
  refine ⟨by decide, by rfl, by rfl, by rfl⟩

/-! ### Order of the cooldown check, the resolution and the permission check -/

/-- C19 as stated fails: a stranger asks for the `sudoOnly` command `shutdown` twice,
500 ms apart. The first attempt is answered with the notice; the second is dropped at the
cooldown check without any reply. -/
theorem second_forbidden_attempt_silently_dropped :
    isSudo Example.cfg Example.stranger = false ∧
    Example.reg.commands.get "shutdown".toList = some Example.shutdown ∧
    handleCommand Js.asciiLower Example.cfg Example.reg Example.runOk 1700000000000 []
        (Example.textFrom ".shutdown".toList) ⟨".".toList, [], "shutdown".toList⟩ =
      ⟨[(Example.stranger, 1700000000000)],
        [Effect.sendMessage Example.stranger "_This command is only for SUDO/OWNER_".toList],
        Exit.forbidden⟩ ∧
    handleCommand Js.asciiLower Example.cfg Example.reg Example.runOk 1700000000500
        [(Example.stranger, 1700000000000)]
        (Example.textFrom ".shutdown".toList) ⟨".".toList, [], "shutdown".toList⟩ =
      ⟨[(Example.stranger, 1700000000000)], [], Exit.rateLimited⟩ := by
  refine ⟨by decide, by decide, by decide, by decide⟩

/-- C19, amended: a sender who is not elevated asks for a command that resolves to a
`sudoOnly` plugin. If the call gets past the cooldown check (the last recorded use is at
least 2000 ms back) it ends as `forbidden` and the one thing it does is to send the notice
to the chat the message came from. If it is inside the cooldown window it is dropped
silently, as every other call is: no notice is sent. -/
theorem forbidden_unless_rate_limited (toLowerCase : Str → Str) (cfg : Config)
    (reg : Registry) (run : Handler) (now : Int) (cooldowns : JsMap Int) (msg : Msg)
    (o : Opts) (cmd : Plugin) (hs : isSudo cfg (senderOf msg) = false)
    (hcmd : reg.commands.get (resolveName toLowerCase reg o.command) = some cmd)
    (hsudo : cmd.sudoOnly = true) :
    (2000 ≤ now - (cooldowns.get (senderOf msg)).getD 0 →
      handleCommand toLowerCase cfg reg run now cooldowns msg o =
        ⟨cooldowns.set (senderOf msg) now,
          [Effect.sendMessage msg.key.remoteJid
            "_This command is only for SUDO/OWNER_".toList],
          Exit.forbidden⟩) ∧
    (now - (cooldowns.get (senderOf msg)).getD 0 < 2000 →
      handleCommand toLowerCase cfg reg run now cooldowns msg o =
        ⟨cooldowns, [], Exit.rateLimited⟩) := by
  constructor
  · intro hge
    have hlt : ¬ (now - (cooldowns.get (senderOf msg)).getD 0 < 2000) := not_lt.mpr hge
    unfold handleCommand
    simp only [hs, hlt, hcmd, hsudo, Bool.not_false, Bool.true_and, decide_False,
      Bool.false_eq_true, if_false, Bool.and_self, if_true]
  · intro hlt
    exact handleCommand_rateLimited toLowerCase cfg reg run now cooldowns msg o hs hlt

/-- Witness of C19 amended: the first attempt of the stranger, with an empty cooldown
map. -/
theorem forbidden_unless_rate_limited_witness :
    ((2000 : Int) ≤ 1700000000000 - (JsMap.get ([] : JsMap Int)
        (senderOf (Example.textFrom ".shutdown".toList))).getD 0 →
      handleCommand Js.asciiLower Example.cfg Example.reg Example.runOk 1700000000000 []
          (Example.textFrom ".shutdown".toList) ⟨".".toList, [], "shutdown".toList⟩ =
        ⟨JsMap.set [] (senderOf (Example.textFrom ".shutdown".toList)) 1700000000000,
          [Effect.sendMessage (Example.textFrom ".shutdown".toList).key.remoteJid
            "_This command is only for SUDO/OWNER_".toList],
          Exit.forbidden⟩) ∧
    ((1700000000000 : Int) - (JsMap.get ([] : JsMap Int)
        (senderOf (Example.textFrom ".shutdown".toList))).getD 0 < 2000 →
      handleCommand Js.asciiLower Example.cfg Example.reg Example.runOk 1700000000000 []
          (Example.textFrom ".shutdown".toList) ⟨".".toList, [], "shutdown".toList⟩ =
        ⟨[], [], Exit.rateLimited⟩) :=
  forbidden_unless_rate_limited Js.asciiLower Example.cfg Example.reg Example.runOk
    1700000000000 [] (Example.textFrom ".shutdown".toList)
    ⟨".".toList, [], "shutdown".toList⟩ Example.shutdown (by decide) (by decide) (by decide)

/-- C20 as stated fails: a stranger sends the unknown command `foo`; the call ends as
`unknown`, but it has written the time into the cooldown map, and the valid command
`ping` the same sender sends 100 ms later is rate-limited. -/
theorem unknown_command_starts_cooldown :
    isSudo Example.cfg Example.stranger = false ∧
    Example.reg.commands.get (resolveName Js.asciiLower Example.reg "foo".toList) = none ∧
    handleCommand Js.asciiLower Example.cfg Example.reg Example.runOk 1700000000000 []
        (Example.textFrom ".foo".toList) ⟨".".toList, [], "foo".toList⟩ =
      ⟨[(Example.stranger, 1700000000000)], [], Exit.unknown⟩ ∧
    handleCommand Js.asciiLower Example.cfg Example.reg Example.runOk 1700000000100
        [(Example.stranger, 1700000000000)]
        (Example.textFrom ".ping".toList) ⟨".".toList, [], "ping".toList⟩ =
      ⟨[(Example.stranger, 1700000000000)], [], Exit.rateLimited⟩ := by
  refine ⟨by decide, by decide, by decide, by decide⟩

/-- C20, amended: a command word that resolves to no registered command never has an
effect on the outside. For an elevated sender the call ends as `unknown` and leaves the
cooldown map unchanged. For any other sender the cooldown check comes first: inside the
window the call is rate-limited; past it the call ends as `unknown` after it has recorded
the time for the sender, so every command the same sender sends less than 2000 ms later
is rate-limited. -/
theorem unknown_command_outcome (toLowerCase : Str → Str) (cfg : Config) (reg : Registry)
    (run : Handler) (now : Int) (cooldowns : JsMap Int) (msg : Msg) (o : Opts)
    (hcmd : reg.commands.get (resolveName toLowerCase reg o.command) = none) :
    (handleCommand toLowerCase cfg reg run now cooldowns msg o).effects = [] ∧
    (isSudo cfg (senderOf msg) = true →
      handleCommand toLowerCase cfg reg run now cooldowns msg o =
        ⟨cooldowns, [], Exit.unknown⟩) ∧
    (isSudo cfg (senderOf msg) = false →
      now - (cooldowns.get (senderOf msg)).getD 0 < 2000 →
      handleCommand toLowerCase cfg reg run now cooldowns msg o =
        ⟨cooldowns, [], Exit.rateLimited⟩) ∧
    (isSudo cfg (senderOf msg) = false →
      2000 ≤ now - (cooldowns.get (senderOf msg)).getD 0 →
      handleCommand toLowerCase cfg reg run now cooldowns msg o =
          ⟨cooldowns.set (senderOf msg) now, [], Exit.unknown⟩ ∧
        ∀ (run2 : Handler) (now2 : Int) (msg2 : Msg) (o2 : Opts),
          senderOf msg2 = senderOf msg → now2 - now < 2000 →
          handleCommand toLowerCase cfg reg run2 now2 (cooldowns.set (senderOf msg) now)
              msg2 o2 =
            ⟨cooldowns.set (senderOf msg) now, [], Exit.rateLimited⟩) := by
  have hsudo : isSudo cfg (senderOf msg) = true →
      handleCommand toLowerCase cfg reg run now cooldowns msg o =
        ⟨cooldowns, [], Exit.unknown⟩ := by
    intro hs
    unfold handleCommand
    simp only [hs, hcmd, Bool.not_true, Bool.false_and, Bool.false_eq_true, if_false,
      if_true]
  have hlim : isSudo cfg (senderOf msg) = false →
      now - (cooldowns.get (senderOf msg)).getD 0 < 2000 →
      handleCommand toLowerCase cfg reg run now cooldowns msg o =
        ⟨cooldowns, [], Exit.rateLimited⟩ :=
    fun hs hlt => handleCommand_rateLimited toLowerCase cfg reg run now cooldowns msg o hs hlt
  have hpast : isSudo cfg (senderOf msg) = false →
      2000 ≤ now - (cooldowns.get (senderOf msg)).getD 0 →
      handleCommand toLowerCase cfg reg run now cooldowns msg o =
        ⟨cooldowns.set (senderOf msg) now, [], Exit.unknown⟩ := by
    intro hs hge
    have hlt : ¬ (now - (cooldowns.get (senderOf msg)).getD 0 < 2000) := not_lt.mpr hge
    unfold handleCommand
    simp only [hs, hlt, hcmd, Bool.not_false, Bool.true_and, decide_False,
      Bool.false_eq_true, if_false]
  refine ⟨?_, hsudo, hlim, ?_⟩
  · by_cases hs : isSudo cfg (senderOf msg) = true
    · rw [hsudo hs]
    · simp only [Bool.not_eq_true] at hs
      by_cases hlt : now - (cooldowns.get (senderOf msg)).getD 0 < 2000
      · rw [hlim hs hlt]
      · rw [hpast hs (not_lt.mp hlt)]
  · intro hs hge
    refine ⟨hpast hs hge, ?_⟩
    intro run2 now2 msg2 o2 hsame hclose
    apply handleCommand_rateLimited
    · rw [hsame]
      exact hs
    · rw [hsame, JsMap.get_set_self]
      exact hclose

/-- Witness of C20 amended: the unknown command `foo` of the stranger, with an empty
cooldown map. -/
theorem unknown_command_outcome_witness :
    (handleCommand Js.asciiLower Example.cfg Example.reg Example.runOk 1700000000000 []
      (Example.textFrom ".foo".toList) ⟨".".toList, [], "foo".toList⟩).effects = [] ∧
    (isSudo Example.cfg (senderOf (Example.textFrom ".foo".toList)) = true →
      handleCommand Js.asciiLower Example.cfg Example.reg Example.runOk 1700000000000 []
          (Example.textFrom ".foo".toList) ⟨".".toList, [], "foo".toList⟩ =
        ⟨[], [], Exit.unknown⟩) ∧
    (isSudo Example.cfg (senderOf (Example.textFrom ".foo".toList)) = false →
      1700000000000 - (JsMap.get ([] : JsMap Int)
        (senderOf (Example.textFrom ".foo".toList))).getD 0 < 2000 →
      handleCommand Js.asciiLower Example.cfg Example.reg Example.runOk 1700000000000 []
          (Example.textFrom ".foo".toList) ⟨".".toList, [], "foo".toList⟩ =
        ⟨[], [], Exit.rateLimited⟩) ∧
    (isSudo Example.cfg (senderOf (Example.textFrom ".foo".toList)) = false →
      2000 ≤ 1700000000000 - (JsMap.get ([] : JsMap Int)
        (senderOf (Example.textFrom ".foo".toList))).getD 0 →
      handleCommand Js.asciiLower Example.cfg Example.reg Example.runOk 1700000000000 []
            (Example.textFrom ".foo".toList) ⟨".".toList, [], "foo".toList⟩ =
          ⟨JsMap.set [] (senderOf (Example.textFrom ".foo".toList)) 1700000000000, [],
            Exit.unknown⟩ ∧
        ∀ (run2 : Handler) (now2 : Int) (msg2 : Msg) (o2 : Opts),
          senderOf msg2 = senderOf (Example.textFrom ".foo".toList) →
          now2 - 1700000000000 < 2000 →
          handleCommand Js.asciiLower Example.cfg Example.reg run2 now2
              (JsMap.set [] (senderOf (Example.textFrom ".foo".toList)) 1700000000000)
              msg2 o2 =
            ⟨JsMap.set [] (senderOf (Example.textFrom ".foo".toList)) 1700000000000, [],
              Exit.rateLimited⟩) :=
  unknown_command_outcome Js.asciiLower Example.cfg Example.reg Example.runOk 1700000000000
    [] (Example.textFrom ".foo".toList) ⟨".".toList, [], "foo".toList⟩ (by decide)

/-! ### Splitting into command word and arguments -/

theorem Js.split_ne_nil (sep : Char) (s : Str) : Js.split sep s ≠ [] := by
  cases s with
  | nil => simp [Js.split]
  | cons c cs =>
    unfold Js.split
    split
    · simp
    · split <;> simp

theorem Js.join_cons_cons (sep : Char) (w v : Str) (ws : List Str) :
    Js.join sep (w :: v :: ws) = w ++ sep :: Js.join sep (v :: ws) := by
  simp [Js.join]

theorem Js.join_split (sep : Char) (s : Str) : Js.join sep (Js.split sep s) = s := by
  induction s with
  | nil => rfl
  | cons c cs ih =>
    unfold Js.split
    cases hsp : Js.split sep cs with
    | nil => exact absurd hsp (Js.split_ne_nil sep cs)
    | cons w ws =>
      rw [hsp] at ih
      by_cases hc : c = sep
      · simp only [hc, if_true]
        rw [Js.join_cons_cons, ih]
        rfl
      · simp only [hc, if_false]
        cases ws with
        | nil =>
          simp only [Js.join] at ih ⊢
          rw [ih]
        | cons v vs =>
          rw [Js.join_cons_cons] at ih ⊢
          rw [List.cons_append, ih]

theorem Js.not_mem_of_mem_split (sep : Char) (s w : Str) (h : w ∈ Js.split sep s) :
    sep ∉ w := by
  induction s generalizing w with
  | nil =>
    simp only [Js.split, List.mem_singleton] at h
    subst h
    simp
  | cons c cs ih =>
    unfold Js.split at h
    by_cases hc : c = sep
    · simp only [hc, if_true, List.mem_cons] at h
      rcases h with h | h
      · subst h
        simp
      · exact ih w h
    · simp only [hc, if_false] at h
      cases hsp : Js.split sep cs with
      | nil => exact absurd hsp (Js.split_ne_nil sep cs)
      | cons v vs =>
        rw [hsp] at h ih
        simp only [List.mem_cons] at h
        rcases h with h | h
        · subst h
          intro hm
          rcases List.mem_cons.mp hm with hm | hm
          · exact hc hm.symm
          · exact ih v (List.mem_cons_self _ _) hm
        · exact ih w (List.mem_cons_of_mem _ h)

/-- C21 as stated fails: with a doubled space the argument list holds an empty string,
and a tab does not separate at all, it stays inside the command word. -/
theorem repeated_space_and_tab_not_tokenised :
    parseCommand Js.asciiLower Js.caretDot ".say  hi".toList =
      ("say".toList, ["".toList, "hi".toList]) ∧
    parseCommand Js.asciiLower Js.caretDot ".say\thi there".toList =
      ("say\thi".toList, ["there".toList]) ∧
    Js.isWhiteSpace '\t' = true := by
  refine ⟨by decide, by decide, by decide⟩

/-- C21, amended: the text left after the prefix is cut off and the ends are trimmed (the
whole text when only the mention addressed it) is split at every single space character
U+0020. The command word is the lower-cased first piece, the arguments are the other
pieces in order; no piece contains a space, and the pieces joined by single spaces give
the text back, so a repeated space yields an empty piece and no other white space
separates. -/
theorem command_split_at_single_spaces (toLowerCase : Str → Str) (prefixRegex : Js.Pattern)
    (text : Str) :
    ∃ w args,
      Js.split ' ' (if Js.test prefixRegex text then
          Js.trim (Js.replaceEmpty prefixRegex text) else text) = w :: args ∧
      parseCommand toLowerCase prefixRegex text = (toLowerCase w, args) ∧
      ' ' ∉ w ∧ (∀ a ∈ args, ' ' ∉ a) ∧
      Js.join ' ' (w :: args) =
        (if Js.test prefixRegex text then
          Js.trim (Js.replaceEmpty prefixRegex text) else text) := by
  generalize hct : (if Js.test prefixRegex text then
      Js.trim (Js.replaceEmpty prefixRegex text) else text) = cmdText
  cases hsp : Js.split ' ' cmdText with
  | nil => exact absurd hsp (Js.split_ne_nil ' ' cmdText)
  | cons w args =>
    refine ⟨w, args, rfl, ?_, ?_, ?_, ?_⟩
    · simp only [parseCommand, hct, hsp, List.headD_cons, List.drop_succ_cons, List.drop_zero]
    · exact Js.not_mem_of_mem_split ' ' cmdText w (hsp ▸ List.mem_cons_self _ _)
    · intro a ha
      exact Js.not_mem_of_mem_split ' ' cmdText a (hsp ▸ List.mem_cons_of_mem _ ha)
    · rw [← hsp, Js.join_split]

/-! ### Case of the plugin name -/

/-- C22, the code at a failing input: the one installed plugin is named `Ping`.
`handleCommand` finds it for the command words `Ping` and `PING`, because the registry
key and the word are both lower-cased. The plugin loop of `lib/client.js` lower-cases the
word only and compares it with the name as written: for the text `.Ping` (and `.ping`) it
starts nothing. -/
theorem client_loop_misses_capitalised_name :
    (loadCommands Js.asciiLower Example.dirCapital).1.commands.get
        (resolveName Js.asciiLower (loadCommands Js.asciiLower Example.dirCapital).1
          "PING".toList) = some Example.pingCapital ∧
    startCount (handleCommand Js.asciiLower Example.cfg
        (loadCommands Js.asciiLower Example.dirCapital).1 Example.runOk 1700000000000 []
        (Example.textFrom ".Ping".toList) ⟨".".toList, [], "Ping".toList⟩).effects = 1 ∧
    clientUpsert Js.asciiLower Js.caretClass Example.cfg Example.userId Example.dirCapital
        Example.runOk [Example.textFrom ".Ping".toList] "notify".toList = [] ∧
    clientUpsert Js.asciiLower Js.caretClass Example.cfg Example.userId Example.dirCapital
        Example.runOk [Example.textFrom ".ping".toList] "notify".toList = [] := by
  refine ⟨by decide, by decide, by decide, by decide⟩

/-! ### The timestamp of the restart counter -/

/-- C23 as stated fails: the counter stands at 1 with the timestamp T = 1700000000000; a
failure 1000 ms later, well inside the window, moves the timestamp to T + 1000. Failures
29 s apart therefore never reset the counter: the sixth stops the supervisor although
the six span 145 s. -/
theorem timestamp_moves_inside_window :
    (1700000001000 : Int) - 1700000000000 ≤ restartWindow ∧
    startNodeOnExit ⟨1, 1700000000000⟩ (some 1) 1700000001000 =
      (⟨2, 1700000001000⟩, [LaunchEffect.logRestarting (some 1), LaunchEffect.startNode]) ∧
    nodeCounts ⟨0, 1700000000000⟩
        [1700000029000, 1700000058000, 1700000087000, 1700000116000, 1700000145000,
          1700000174000] = [1, 2, 3, 4, 5, 6] := by
  refine ⟨by decide, by decide, by decide⟩

/-- C23, amended: on every exit with a non-zero code the timestamp `lastRestartTime` is
set to the current time, whether the counter is reset or not. The counter becomes 1 when
the exit comes more than `restartWindow` after the previous one and is incremented
otherwise: it counts the failures that follow each other at most `restartWindow`
apart. -/
theorem timestamp_set_on_every_failure (st : NodeSupervisor) (code : Option Int)
    (currentTime : Int) (hc : code ≠ some 0) :
    (startNodeOnExit st code currentTime).1.lastRestartTime = currentTime ∧
    (startNodeOnExit st code currentTime).1.nodeRestartCount =
      (if currentTime - st.lastRestartTime > restartWindow then 1
       else st.nodeRestartCount + 1) := by
  by_cases hw : currentTime - st.lastRestartTime > restartWindow
  · rw [startNodeOnExit_after st code currentTime hc hw]
    simp [hw]
  · rw [startNodeOnExit_within st code currentTime hc (not_lt.mp hw)]
    split <;> simp [hw]

/-- Witness of C23 amended: the failure 1000 ms after the previous one. -/
theorem timestamp_set_on_every_failure_witness :
    (startNodeOnExit ⟨1, 1700000000000⟩ (some 1) 1700000001000).1.lastRestartTime =
      1700000001000 ∧
    (startNodeOnExit ⟨1, 1700000000000⟩ (some 1) 1700000001000).1.nodeRestartCount =
      (if (1700000001000 : Int) - (⟨1, 1700000000000⟩ : NodeSupervisor).lastRestartTime >
          restartWindow then 1
       else (⟨1, 1700000000000⟩ : NodeSupervisor).nodeRestartCount + 1) :=
  timestamp_set_on_every_failure ⟨1, 1700000000000⟩ (some 1) 1700000001000 (by decide)

/-! ### Sockets created on a close event -/

theorem socketsCreated_append (xs ys : List BootEffect) :
    socketsCreated (xs ++ ys) = socketsCreated xs + socketsCreated ys := by
  induction xs with
  | nil => simp [socketsCreated]
  | cons e xs ih =>
    cases e with
    | connectToWhatsApp sid =>
      show socketsCreated (xs ++ ys) + 1 = socketsCreated xs + 1 + socketsCreated ys
      omega
    | startBot =>
      show socketsCreated (xs ++ ys) + 1 = socketsCreated xs + 1 + socketsCreated ys
      omega
    | consoleLog _ => exact ih
    | qrGenerate _ => exact ih
    | sendMessage _ _ => exact ih

/-- On a socket obtained through `startBot`, every close event whose status code is not
the logged-out code creates two sockets: one by the handler of `connectToWhatsApp`, one
by the handler of `startBot`. -/
theorem startBot_socket_close_creates_two (loggedOut : Int) (cfg : Config)
    (sessionId alive : Str) (u : ConnectionUpdate)
    (hclose : u.connection = some "close".toList)
    (hcode : disconnectStatusCode u ≠ some loggedOut) :
    socketsCreated (startBotSocketUpdate loggedOut cfg sessionId alive u) = 2 := by
  unfold startBotSocketUpdate authConnectionUpdate indexConnectionUpdate
  simp only [hclose, hcode, if_true, ne_eq, not_false_eq_true, socketsCreated_append]
  rcases hqr : u.qr with _ | q
  · simp [socketsCreated]
  · cases q <;> simp [socketsCreated]

/-- C24, the code at a failing input: one close event with status code 428 on a socket
obtained through `startBot`. The handler of `connectToWhatsApp` calls
`connectToWhatsApp(sessionId)` and the handler of `startBot` calls `startBot()`: two
sockets are created, not one. -/
theorem close_on_startBot_socket_creates_two_sockets :
    disconnectStatusCode Example.closeEvent ≠ some 401 ∧
    startBotSocketUpdate 401 Example.cfg "dexnova-default".toList "alive".toList
        Example.closeEvent =
      [BootEffect.consoleLog
          "[DEX Nova] Connection closed: Error: Connection Closed Reconnecting? true".toList,
        BootEffect.connectToWhatsApp "dexnova-default".toList,
        BootEffect.consoleLog "[DEX Nova] Connection closed: Error: Connection Closed".toList,
        BootEffect.consoleLog "Reconnecting? Yes".toList,
        BootEffect.startBot] ∧
    socketsCreated (startBotSocketUpdate 401 Example.cfg "dexnova-default".toList
        "alive".toList Example.closeEvent) = 2 := by
  refine ⟨by decide, by decide, by decide⟩

/-! ### The two restart counters -/

/-- C25 as stated fails: two restarts 40 s apart. The counter of `startNode` is reset by
the second and stands at 1 again; the counter of `startPm2` has no reset and stands
at 2. -/
theorem pm2_counter_not_reset_after_window :
    (1700000041000 : Int) - 1700000001000 > restartWindow ∧
    nodeCounts ⟨0, 1700000000000⟩ [1700000001000, 1700000041000] = [1, 1] ∧
    pm2Counts ⟨0⟩
        [(1700000001000, "PM2 | App [dex-nova] restart".toList),
          (1700000041000, "PM2 | App [dex-nova] restart".toList)] = [1, 2] := by
  refine ⟨by decide, by decide, by decide⟩

theorem pm2Counts_restarts (pm : Pm2Supervisor) (events : List (Int × Str))
    (h : ∀ e ∈ events, Js.includes e.2 "restart".toList = true) :
    pm2Counts pm events = List.range' (pm.restartCount + 1) events.length := by
  induction events generalizing pm with
  | nil => rfl
  | cons e rest ih =>
    obtain ⟨t, output⟩ := e
    have he : Js.includes output "restart".toList = true := h (t, output) (List.mem_cons_self _ _)
    have hst : (pm2OnStderr pm output).1 = ⟨pm.restartCount + 1⟩ := by
      unfold pm2OnStderr
      simp only [he, if_true]
      split <;> rfl
    simp only [pm2Counts, hst, List.length_cons, List.range'_succ]
    rw [ih ⟨pm.restartCount + 1⟩ (fun x hx => h x (List.mem_cons_of_mem _ hx))]

theorem nodeCounts_within (nd : NodeSupervisor) (ts : List Int)
    (h : List.Chain (fun a b => b - a ≤ restartWindow) nd.lastRestartTime ts) :
    nodeCounts nd ts = List.range' (nd.nodeRestartCount + 1) ts.length := by
  induction ts generalizing nd with
  | nil => rfl
  | cons t rest ih =>
    rw [List.chain_cons] at h
    have hst : (startNodeOnExit nd (some 1) t).1 = ⟨nd.nodeRestartCount + 1, t⟩ := by
      rw [startNodeOnExit_within nd (some 1) t (by decide) h.1]
      split <;> rfl
    simp only [nodeCounts, hst, List.length_cons, List.range'_succ]
    rw [ih ⟨nd.nodeRestartCount + 1, t⟩ h.2]

/-- C25, amended: the counter of `startPm2` has no reset rule. Every `stderr` chunk that
contains `restart` increments it, whatever the time since the one before, so over the
chunks of a list it runs through the values start + 1, start + 2, and so on. The counter
of `startNode` runs through the same values over failures that each come at most
`restartWindow` after the one before. One more restart, with both counters at the same
value: the counter of `startPm2` goes up by one, the counter of `startNode` goes up by
one inside the window and to 1 after it, so the two are equal afterwards exactly when the
restart comes inside the window or the counters stood at 0. -/
theorem restart_counters_compared (pm : Pm2Supervisor) (nd : NodeSupervisor)
    (events : List (Int × Str))
    (h : ∀ e ∈ events, Js.includes e.2 "restart".toList = true) :
    pm2Counts pm events = List.range' (pm.restartCount + 1) events.length ∧
    (List.Chain (fun a b => b - a ≤ restartWindow) nd.lastRestartTime
        (events.map Prod.fst) →
      nodeCounts nd (events.map Prod.fst) =
        List.range' (nd.nodeRestartCount + 1) events.length) ∧
    ∀ (t : Int) (output : Str), Js.includes output "restart".toList = true →
      (pm2OnStderr ⟨nd.nodeRestartCount⟩ output).1.restartCount = nd.nodeRestartCount + 1 ∧
      (startNodeOnExit nd (some 1) t).1.nodeRestartCount =
        (if t - nd.lastRestartTime > restartWindow then 1 else nd.nodeRestartCount + 1) ∧
      ((startNodeOnExit nd (some 1) t).1.nodeRestartCount =
          (pm2OnStderr ⟨nd.nodeRestartCount⟩ output).1.restartCount ↔
        (t - nd.lastRestartTime ≤ restartWindow ∨ nd.nodeRestartCount = 0)) := by
  refine ⟨pm2Counts_restarts pm events h, ?_, ?_⟩
  · intro hc
    have := nodeCounts_within nd (events.map Prod.fst) hc
    simpa using this
  · intro t output hout
    have hpm : (pm2OnStderr ⟨nd.nodeRestartCount⟩ output).1.restartCount =
        nd.nodeRestartCount + 1 := by
      unfold pm2OnStderr
      simp only [hout, if_true]
      split <;> rfl
    have hnd : (startNodeOnExit nd (some 1) t).1.nodeRestartCount =
        (if t - nd.lastRestartTime > restartWindow then 1 else nd.nodeRestartCount + 1) := by
      by_cases hw : t - nd.lastRestartTime > restartWindow
      · rw [startNodeOnExit_after nd (some 1) t (by decide) hw]
        simp [hw]
      · rw [startNodeOnExit_within nd (some 1) t (by decide) (not_lt.mp hw)]
        split <;> simp [hw]
    refine ⟨hpm, hnd, ?_⟩
    rw [hpm, hnd]
    by_cases hw : t - nd.lastRestartTime > restartWindow
    · simp only [hw, if_true]
      constructor
      · intro h1
        right
        omega
      · intro h1
        rcases h1 with h1 | h1
        · exact absurd hw (not_lt.mpr h1)
        · omega
    · simp only [hw, if_false, true_iff]
      exact Or.inl (not_lt.mp hw)

/-- Witness of C25 amended: two restart reports one second apart, the first one second
after the stored timestamp; both counters start at 0 and read 1, then 2. The last part is
the comparison of one more restart at that supervisor, whose counter stands at 0. -/
theorem restart_counters_compared_witness :
    pm2Counts ⟨0⟩ Example.restartsClose = [1, 2] ∧
    nodeCounts ⟨0, 1700000000000⟩ (Example.restartsClose.map Prod.fst) = [1, 2] ∧
    ∀ (t : Int) (output : Str), Js.includes output "restart".toList = true →
      (pm2OnStderr ⟨(⟨0, 1700000000000⟩ : NodeSupervisor).nodeRestartCount⟩
          output).1.restartCount =
        (⟨0, 1700000000000⟩ : NodeSupervisor).nodeRestartCount + 1 ∧
      (startNodeOnExit ⟨0, 1700000000000⟩ (some 1) t).1.nodeRestartCount =
        (if t - (⟨0, 1700000000000⟩ : NodeSupervisor).lastRestartTime > restartWindow then 1
         else (⟨0, 1700000000000⟩ : NodeSupervisor).nodeRestartCount + 1) ∧
      ((startNodeOnExit ⟨0, 1700000000000⟩ (some 1) t).1.nodeRestartCount =
          (pm2OnStderr ⟨(⟨0, 1700000000000⟩ : NodeSupervisor).nodeRestartCount⟩
            output).1.restartCount ↔
        (t - (⟨0, 1700000000000⟩ : NodeSupervisor).lastRestartTime ≤ restartWindow ∨
          (⟨0, 1700000000000⟩ : NodeSupervisor).nodeRestartCount = 0)) :=
  ⟨(restart_counters_compared ⟨0⟩ ⟨0, 1700000000000⟩ Example.restartsClose
      (by decide)).1,
    (restart_counters_compared ⟨0⟩ ⟨0, 1700000000000⟩ Example.restartsClose
      (by decide)).2.1
      (List.Chain.cons (by decide) (List.Chain.cons (by decide) List.Chain.nil)),
    (restart_counters_compared ⟨0⟩ ⟨0, 1700000000000⟩ Example.restartsClose
      (by decide)).2.2⟩

/-! ### Empty `SUDO`, throwing plugins, `formatNumber` -/

/-- With `SUDO = ''` a sender is elevated exactly when nothing stands in front of the
first `@` of its JID. -/
theorem isSudo_empty_config (pfx sender : Str) :
    isSudo ⟨pfx, []⟩ sender = decide ((Js.split '@' sender).headD [] = []) := by
  have h : (Js.split ',' ([] : Str)).map Js.trim = [[]] := by decide
  unfold isSudo
  rw [h]
  cases (Js.split '@' sender).headD [] with
  | nil => rfl
  | cons c cs => rfl

/-- C27, the code at a failing input: with `SUDO = ''` the list of elevated numbers is
`['']`, and a sender whose JID has nothing in front of the `@` is elevated. Its request
for the `sudoOnly` command `shutdown` starts the handler, and no cooldown is recorded.
A sender with a number is not elevated. -/
theorem empty_sudo_elevates_empty_user_part :
    isSudo Example.cfgNoSudo "@s.whatsapp.net".toList = true ∧
    isSudo Example.cfgNoSudo Example.stranger = false ∧
    handleCommand Js.asciiLower Example.cfgNoSudo Example.reg Example.runOk 1700000000000 []
        (Example.textFromServer ".shutdown".toList) ⟨".".toList, [], "shutdown".toList⟩ =
      ⟨[],
        [Effect.start Example.shutdown (Example.textFromServer ".shutdown".toList)
            ⟨".".toList, [], "shutdown".toList, some true, some false⟩,
          Effect.consoleLog "[CMD]  used: shutdown ".toList],
        Exit.done⟩ := by
  refine ⟨by decide, by decide, by decide⟩

/-- C28, the code at a failing input: the plugins `ping` and `pong` (which has the alias
`ping`) both match the command word `ping`, and the handler of `ping` throws. The `break`
is skipped, the error is logged and the loop goes on: both handlers are started for the
one message, in `lib/client.js` and in `lib/index.js`. -/
theorem throwing_plugin_lets_second_plugin_start :
    clientUpsert Js.asciiLower Js.caretClass Example.cfg Example.userId Example.dirTwo
        Example.runPingThrows [Example.textFrom ".ping".toList] "notify".toList =
      [Effect.start Example.ping (Example.textFrom ".ping".toList)
          ⟨Example.cfg.PREFIX, [], "ping".toList, none, none⟩,
        Effect.consoleError "Plugin error in ping.js: boom".toList,
        Effect.start Example.pong (Example.textFrom ".ping".toList)
          ⟨Example.cfg.PREFIX, [], "ping".toList, none, none⟩] ∧
    startCount (clientUpsert Js.asciiLower Js.caretClass Example.cfg Example.userId
        Example.dirTwo Example.runPingThrows [Example.textFrom ".ping".toList]
        "notify".toList) = 2 ∧
    startCount (handleMessage "[Plugin Error] ".toList Js.asciiLower Js.caretClass
        Example.cfg Example.userId Example.dirTwo Example.runPingThrows
        (Example.textFrom ".ping".toList)) = 2 := by
  refine ⟨by decide, by decide, by decide⟩

/-- C30, the code at a failing input: for 999999 the unit `K` is chosen from the
magnitude before rounding, the scaled value 999.999 is then rounded to one decimal, and
the text is `1000.0K`. The same happens from 999950 on; 999949 and 1000000 print as they
should. -/
theorem formatNumber_prints_1000_with_smaller_unit :
    formatNumber 999999 1 = Except.ok "1000.0K".toList ∧
    formatNumber 999950 1 = Except.ok "1000.0K".toList ∧
    formatNumber (-999999999) 1 = Except.ok "-1000.0M".toList ∧
    formatNumber 999949 1 = Except.ok "999.9K".toList ∧
    formatNumber 1000000 1 = Except.ok "1.0M".toList := by
  refine ⟨by rfl, by rfl, by rfl, by rfl, by rfl⟩

/-! ### Admin and owner checks after a refresh -/

theorem isGroupAdmin_of_entry (session : Session) (now : Int) (st : Store)
    (groupJid userJid : Str) (entry : ParticipantEntry)
    (h : st.participantCache.get groupJid = some entry) :
    isGroupAdmin session now st groupJid userJid =
      ⟨st, entry.admins.contains userJid, []⟩ := by
  simp [isGroupAdmin, getGroupParticipants, h]

theorem isGroupOwner_of_entry (session : Session) (now : Int) (st : Store)
    (groupJid userJid : Str) (entry : ParticipantEntry)
    (h : st.participantCache.get groupJid = some entry) :
    (isGroupOwner session now st groupJid userJid).store = st ∧
    (isGroupOwner session now st groupJid userJid).effects = [] ∧
    ((isGroupOwner session now st groupJid userJid).result = true ↔
      ∃ o, entry.owner = some o ∧ o ≠ [] ∧ o = userJid) := by
  unfold isGroupOwner getGroupParticipants
  simp only [h]
  cases ho : entry.owner with
  | none => simp
  | some owner =>
    cases owner with
    | nil => simp
    | cons c cs => simp

theorem fetch_forced_ok (session : Session) (now : Int) (st : Store) (groupJid : Str)
    (m : GroupMetadata) (hg : Js.endsWith groupJid "@g.us".toList = true)
    (hm : session groupJid = Except.ok m) :
    (fetchGroupMetadata session now st groupJid true).store =
      ⟨st.groupCache.set groupJid m,
        st.participantCache.set groupJid (participantEntry m now)⟩ := by
  unfold fetchGroupMetadata
  simp only [hg, hm, Bool.not_true, Bool.false_eq_true, if_false, Bool.false_and]

theorem Participant.isAdmin_iff (p : Participant) :
    p.isAdmin = true ↔ p.admin ≠ none ∧ p.admin ≠ some [] := by
  unfold Participant.isAdmin
  cases ha : p.admin with
  | none => simp
  | some a =>
    cases a with
    | nil => simp
    | cons c cs => simp

/-- C26: a forced fetch of the group id `g` succeeds with the metadata `m`. From then on
(whatever the clock and the session do later) `isGroupAdmin(g, u)` is true exactly when
`m` has a participant with the id `u` whose `admin` property is set (it is there and not
the empty string), and `isGroupOwner(g, u)` is true exactly when `m` has a (non-empty)
owner and it is `u`; neither call asks the session. -/
theorem admin_owner_after_refresh (session later : Session) (now now2 : Int) (st : Store)
    (g u : Str) (m : GroupMetadata) (hg : Js.endsWith g "@g.us".toList = true)
    (hm : session g = Except.ok m) :
    ((isGroupAdmin later now2 (fetchGroupMetadata session now st g true).store g u).result =
        true ↔
      ∃ p ∈ m.participants.getD [], p.id = u ∧ p.admin ≠ none ∧ p.admin ≠ some []) ∧
    ((isGroupOwner later now2 (fetchGroupMetadata session now st g true).store g u).result =
        true ↔
      ∃ o, m.owner = some o ∧ o ≠ [] ∧ o = u) ∧
    (isGroupAdmin later now2 (fetchGroupMetadata session now st g true).store g u).effects =
      [] ∧
    (isGroupOwner later now2 (fetchGroupMetadata session now st g true).store g u).effects =
      [] := by
  have hstore := fetch_forced_ok session now st g m hg hm
  have hentry : (fetchGroupMetadata session now st g true).store.participantCache.get g =
      some (participantEntry m now) := by
    rw [hstore]
    exact JsMap.get_set_self _ _ _
  have hadmin := isGroupAdmin_of_entry later now2 _ g u _ hentry
  have howner := isGroupOwner_of_entry later now2 _ g u _ hentry
  refine ⟨?_, howner.2.2, by rw [hadmin], howner.2.1⟩
  rw [hadmin]
  show List.elem u (participantEntry m now).admins = true ↔ _
  rw [List.elem_iff]
  simp only [participantEntry, List.mem_map, List.mem_filter]
  constructor
  · rintro ⟨p, ⟨hp, ha⟩, hid⟩
    exact ⟨p, hp, hid, (Participant.isAdmin_iff p).mp ha⟩
  · rintro ⟨p, hp, hid, ha⟩
    exact ⟨p, ⟨hp, (Participant.isAdmin_iff p).mpr ha⟩, hid⟩

/-- Witness of C26: the group of the examples, fetched at time 0 and asked about at time
400000 while the session is down. Its first participant, a `superadmin` and the owner, is
found to be admin and owner; the second, who has no `admin` property, is neither. -/
theorem admin_owner_after_refresh_witness :
    isGroupAdmin Example.sessionDown 400000
        (fetchGroupMetadata Example.session 0 ⟨[], []⟩ Example.group true).store
        Example.group "919876543210@s.whatsapp.net".toList =
      ⟨Example.fetchedAt0, true, []⟩ ∧
    isGroupOwner Example.sessionDown 400000
        (fetchGroupMetadata Example.session 0 ⟨[], []⟩ Example.group true).store
        Example.group "919876543210@s.whatsapp.net".toList =
      ⟨Example.fetchedAt0, true, []⟩ ∧
    isGroupAdmin Example.sessionDown 400000
        (fetchGroupMetadata Example.session 0 ⟨[], []⟩ Example.group true).store
        Example.group Example.stranger =
      ⟨Example.fetchedAt0, false, []⟩ ∧
    isGroupOwner Example.sessionDown 400000
        (fetchGroupMetadata Example.session 0 ⟨[], []⟩ Example.group true).store
        Example.group Example.stranger =
      ⟨Example.fetchedAt0, false, []⟩ ∧
    (((isGroupAdmin Example.sessionDown 400000
            (fetchGroupMetadata Example.session 0 ⟨[], []⟩ Example.group true).store
            Example.group "919876543210@s.whatsapp.net".toList).result = true ↔
        ∃ p ∈ Example.metadata.participants.getD [],
          p.id = "919876543210@s.whatsapp.net".toList ∧ p.admin ≠ none ∧
            p.admin ≠ some []) ∧
      ((isGroupOwner Example.sessionDown 400000
            (fetchGroupMetadata Example.session 0 ⟨[], []⟩ Example.group true).store
            Example.group "919876543210@s.whatsapp.net".toList).result = true ↔
        ∃ o, Example.metadata.owner = some o ∧ o ≠ [] ∧
          o = "919876543210@s.whatsapp.net".toList) ∧
      (isGroupAdmin Example.sessionDown 400000
          (fetchGroupMetadata Example.session 0 ⟨[], []⟩ Example.group true).store
          Example.group "919876543210@s.whatsapp.net".toList).effects = [] ∧
      (isGroupOwner Example.sessionDown 400000
          (fetchGroupMetadata Example.session 0 ⟨[], []⟩ Example.group true).store
          Example.group "919876543210@s.whatsapp.net".toList).effects = []) :=
  ⟨by decide, by decide, by decide, by decide,
    admin_owner_after_refresh Example.session Example.sessionDown 0 400000 ⟨[], []⟩
      Example.group "919876543210@s.whatsapp.net".toList Example.metadata (by decide) rfl⟩

/-! ### The two caches of the store stay in step -/

theorem JsMap.keys_set {V W : Type} (m : JsMap V) (n : JsMap W) (k : Str) (v : V) (w : W)
    (h : m.map Prod.fst = n.map Prod.fst) :
    (JsMap.set m k v).map Prod.fst = (JsMap.set n k w).map Prod.fst := by
  induction m generalizing n with
  | nil =>
    cases n with
    | nil => rfl
    | cons e n => simp at h
  | cons e m ih =>
    cases n with
    | nil => simp at h
    | cons f n =>
      obtain ⟨k1, v1⟩ := e
      obtain ⟨k2, w2⟩ := f
      simp only [List.map_cons, List.cons.injEq] at h
      obtain ⟨hk, hrest⟩ := h
      subst hk
      by_cases hkk : k1 = k
      · simp [JsMap.set, hkk, hrest]
      · simp [JsMap.set, hkk, ih n hrest]

theorem JsMap.keys_delete {V W : Type} (m : JsMap V) (n : JsMap W) (k : Str)
    (h : m.map Prod.fst = n.map Prod.fst) :
    (JsMap.delete m k).map Prod.fst = (JsMap.delete n k).map Prod.fst := by
  induction m generalizing n with
  | nil =>
    cases n with
    | nil => rfl
    | cons e n => simp at h
  | cons e m ih =>
    cases n with
    | nil => simp at h
    | cons f n =>
      obtain ⟨k1, v1⟩ := e
      obtain ⟨k2, w2⟩ := f
      simp only [List.map_cons, List.cons.injEq] at h
      obtain ⟨hk, hrest⟩ := h
      subst hk
      have ih1 := ih n hrest
      unfold JsMap.delete at ih1 ⊢
      simp only [ne_eq, decide_not] at ih1
      by_cases hkk : k1 = k
      · simp [List.filter_cons, hkk, ih1]
      · simp [List.filter_cons, hkk, ih1]

theorem JsMap.has_of_keys {V W : Type} (m : JsMap V) (n : JsMap W) (k : Str)
    (h : m.map Prod.fst = n.map Prod.fst) : JsMap.has m k = JsMap.has n k := by
  induction m generalizing n with
  | nil =>
    cases n with
    | nil => rfl
    | cons e n => simp at h
  | cons e m ih =>
    cases n with
    | nil => simp at h
    | cons f n =>
      obtain ⟨k1, v1⟩ := e
      obtain ⟨k2, w2⟩ := f
      simp only [List.map_cons, List.cons.injEq] at h
      obtain ⟨hk, hrest⟩ := h
      subst hk
      have ih1 := ih n hrest
      unfold JsMap.has at ih1 ⊢
      by_cases hkk : k1 = k
      · simp [JsMap.get, hkk]
      · simp [JsMap.get, hkk, ih1]

theorem JsMap.get_delete_some {V : Type} (m : JsMap V) (k j : Str) (v : V)
    (h : JsMap.get (JsMap.delete m k) j = some v) : JsMap.get m j = some v := by
  induction m with
  | nil => simp [JsMap.delete, JsMap.get] at h
  | cons e m ih =>
    obtain ⟨k1, v1⟩ := e
    unfold JsMap.delete at h ih
    by_cases hkk : k1 = k
    · have hj : j ≠ k := by
        intro hjk
        subst hjk
        have := JsMap.get_delete_self ((k1, v1) :: m) j
        unfold JsMap.delete at this
        rw [this] at h
        exact Option.noConfusion h
      simp only [List.filter_cons, hkk, ne_eq, not_true_eq_false, decide_False,
        Bool.false_eq_true, if_false] at h
      have hne : ¬ k1 = j := fun hh => hj (hh ▸ hkk)
      simp only [JsMap.get, hne, if_false]
      exact ih h
    · simp only [List.filter_cons, hkk, ne_eq, not_false_eq_true, decide_True, if_true] at h
      by_cases hj : k1 = j
      · simp only [JsMap.get, hj, if_true] at h ⊢
        exact h
      · simp only [JsMap.get, hj, if_false] at h ⊢
        exact ih h

theorem participantEntry_admins_sublist (m : GroupMetadata) (now : Int) :
    List.Sublist (participantEntry m now).admins (participantEntry m now).participants := by
  unfold participantEntry
  exact List.Sublist.map _ (List.filter_sublist _)

theorem consistent_set (st : Store) (g : Str) (m : GroupMetadata) (now : Int)
    (h : st.Consistent) :
    Store.Consistent ⟨st.groupCache.set g m,
      st.participantCache.set g (participantEntry m now)⟩ := by
  refine ⟨JsMap.keys_set _ _ g _ _ h.1, ?_⟩
  intro g' e he
  by_cases hg : g = g'
  · subst hg
    simp only at he
    rw [JsMap.get_set_self] at he
    cases he
    exact participantEntry_admins_sublist m now
  · simp only at he
    rw [JsMap.get_set_ne _ _ _ _ hg] at he
    exact h.2 g' e he

theorem fetch_store_cases (session : Session) (now : Int) (st : Store) (g : Str)
    (force : Bool) :
    (fetchGroupMetadata session now st g force).store = st ∨
    ∃ m, (fetchGroupMetadata session now st g force).store =
      ⟨st.groupCache.set g m, st.participantCache.set g (participantEntry m now)⟩ := by
  unfold fetchGroupMetadata
  split
  · exact Or.inl rfl
  · split
    · exact Or.inl rfl
    · split
      · rename_i m _
        exact Or.inr ⟨m, rfl⟩
      · exact Or.inl rfl

theorem consistent_fetch (session : Session) (now : Int) (st : Store) (g : Str)
    (force : Bool) (h : st.Consistent) :
    (fetchGroupMetadata session now st g force).store.Consistent := by
  rcases fetch_store_cases session now st g force with h1 | ⟨m, h1⟩
  · rw [h1]
    exact h
  · rw [h1]
    exact consistent_set st g m now h

theorem consistent_getParticipants (session : Session) (now : Int) (st : Store) (g : Str)
    (h : st.Consistent) : (getGroupParticipants session now st g).store.Consistent := by
  unfold getGroupParticipants
  split
  · exact h
  · simp only
    split <;> exact consistent_fetch session now st g false h

theorem consistent_apply (st : Store) (op : StoreOp) (h : st.Consistent) :
    (op.apply st).Consistent := by
  cases op with
  | fetch session now g force => exact consistent_fetch session now st g force h
  | getMetadata session now g maxAge =>
    simp only [StoreOp.apply, getGroupMetadata]
    split
    · exact h
    · exact consistent_fetch session now st g true h
  | getParticipants session now g => exact consistent_getParticipants session now st g h
  | isAdmin session now g u =>
    simp only [StoreOp.apply, isGroupAdmin]
    split <;> exact consistent_getParticipants session now st g h
  | isOwner session now g u =>
    simp only [StoreOp.apply, isGroupOwner]
    split
    · exact consistent_getParticipants session now st g h
    · split <;> exact consistent_getParticipants session now st g h
  | participantsUpdate session now g => exact consistent_fetch session now st g true h
  | clear g =>
    refine ⟨JsMap.keys_delete _ _ g h.1, ?_⟩
    intro g' e he
    exact h.2 g' e (JsMap.get_delete_some _ _ _ _ he)

/-- C29: in every state reached from the empty caches by any sequence of calls of
`fetchGroupMetadata`, `getGroupMetadata`, `getGroupParticipants`, `isGroupAdmin`,
`isGroupOwner`, the membership-change listener and `clearGroupCache`, whatever the
session answers, the two caches hold exactly the same group ids (even in the same order),
so `has` agrees on both for every id, and in every participant entry the admins are a
sublist of the participants. -/
theorem caches_stay_in_step (ops : List StoreOp) :
    (runOps ⟨[], []⟩ ops).Consistent ∧
    ∀ g, (runOps ⟨[], []⟩ ops).groupCache.has g =
      (runOps ⟨[], []⟩ ops).participantCache.has g := by
  have hrun : ∀ (l : List StoreOp) (st : Store), st.Consistent → (runOps st l).Consistent := by
    intro l
    induction l with
    | nil => exact fun st h => h
    | cons op rest ih => exact fun st h => ih _ (consistent_apply st op h)
  have hempty : Store.Consistent ⟨[], []⟩ :=
    ⟨rfl, fun g e he => by simp [JsMap.get] at he⟩
  have hc := hrun ops _ hempty
  exact ⟨hc, fun g => JsMap.has_of_keys _ _ g hc.1⟩

end Levanter
